import Mathlib

/-!
# Passbolt browser extension: background page event handlers

A shallow embedding of the event handlers registered by
`src/all/background_page/event/appEvents.js`,
`src/all/background_page/event/editPasswordEvents.js` and
`src/all/background_page/event/userEvents.js`.

A handler run is a function from the tab store to the new tab store and the
list of observable effects (messages emitted on ports, calls to the
collaborators) in the order in which the code performs them. The collaborators
that are required from other modules (key ring, crypto, master password prompt,
permission simulation, worker registry) are the fields of an environment
record: each one answers with a value or with the error it rejects with.
-/

namespace Passbolt

/-! ## Data model -/

abbrev TabId := Nat

/-- Error value thrown or used as a rejection reason: `e.message` and the
optional `e.validationErrors`. -/
structure JsError where
  message : String
  validationErrors : Option (List (String × String))
deriving DecidableEq, Repr

/-- The error raised by the engine when a property of `undefined` is read. -/
def typeError (what : String) : JsError :=
  ⟨what, none⟩

/-- Grantee descriptor of the `shareWith` list: `{User: {id}}` or `{Group: {id}}`. -/
inductive Aro where
  | User (id : String)
  | Group (id : String)
deriving DecidableEq, Repr

/-- Value stored under `editedPassword`; `secret` is null or undefined until
the secret has been decrypted. -/
structure EditedPassword where
  secret : Option String
deriving DecidableEq, Repr

/-- Value stored under `sharedPassword`. -/
structure SharedPassword where
  armored : String
  resourceId : String
  secret : Option String
deriving DecidableEq, Repr

/-- A plain JavaScript object (created by `{}`) used as a map from string keys
to strings, as the list of its own properties in the order in which they are
enumerated: the keys that are array indices in ascending order, then the other
keys in the order of their creation. -/
abbrev JsObject := List (String × String)

/-- Value of a decimal digit. -/
def digitValue (c : Char) : Option Nat :=
  if 48 ≤ c.toNat ∧ c.toNat ≤ 57 then some (c.toNat - 48) else none

/-- Value of a string of decimal digits, after the digits read so far. -/
def decimalValue : List Char → Nat → Option Nat
  | [], value => some value
  | c :: rest, value =>
    match digitValue c with
    | some d => decimalValue rest (value * 10 + d)
    | none => none

/-- The array index that a property key denotes, if any: the key is the
decimal writing, without leading zero, of a number below 2^32 - 1. -/
def arrayIndex (key : String) : Option Nat :=
  match key.toList with
  | [] => none
  | c :: rest =>
    if c = '0' ∧ rest ≠ [] then none
    else
      match decimalValue (c :: rest) 0 with
      | some n => if n < 4294967295 then some n else none
      | none => none

/-- Place of a new property whose key is the array index `n`: before the first
property whose key is a larger array index or is not an array index. -/
def JsObject.insertIndex (n : Nat) (key value : String) : JsObject → JsObject
  | [] => [(key, value)]
  | (k, v) :: rest =>
    match arrayIndex k with
    | some m =>
      if n < m then (key, value) :: (k, v) :: rest
      else (k, v) :: JsObject.insertIndex n key value rest
    | none => (key, value) :: (k, v) :: rest

/-- Creation of a new own property: among the array indices when the key is
one, last otherwise. -/
def JsObject.add (obj : JsObject) (key value : String) : JsObject :=
  match arrayIndex key with
  | some n => JsObject.insertIndex n key value obj
  | none => obj ++ [(key, value)]

/-- Property assignment `obj[key] = value` of a string value. The key
`__proto__` is the accessor inherited from `Object.prototype`, whose setter
ignores a string: no own property is created. An existing own property keeps
its place and takes the new value; otherwise a new own property is created. -/
def JsObject.set (obj : JsObject) (key value : String) : JsObject :=
  if key = "__proto__" then obj
  else
    match obj.lookup key with
    | some _ => obj.map (fun kv => if kv.1 = key then (kv.1, value) else kv)
    | none => JsObject.add obj key value

/-- Value of the own property `key` of the object, if it has one. -/
def JsObject.get (obj : JsObject) (key : String) : Option String :=
  obj.lookup key

/-- Keys of the per tab storage that the handlers use. -/
inductive Key where
  | editedPassword
  | sharedPassword
  | shareWith
  | exportedResources
deriving DecidableEq, Repr

/-- Type of the value kept under each key. -/
@[reducible] def Key.Val : Key → Type
  | .editedPassword => EditedPassword
  | .sharedPassword => SharedPassword
  | .shareWith => List Aro
  | .exportedResources => List String

/-- State of one tab: the value under each key, `none` when undefined. -/
structure TabState where
  editedPassword : Option EditedPassword
  sharedPassword : Option SharedPassword
  shareWith : Option (List Aro)
  exportedResources : Option (List String)
deriving DecidableEq, Repr

/-- State of a tab nothing was written for. -/
def TabState.empty : TabState :=
  ⟨none, none, none, none⟩

def TabState.get (ts : TabState) : (k : Key) → Option k.Val
  | .editedPassword => ts.editedPassword
  | .sharedPassword => ts.sharedPassword
  | .shareWith => ts.shareWith
  | .exportedResources => ts.exportedResources

def TabState.set (ts : TabState) : (k : Key) → k.Val → TabState
  | .editedPassword, v => { ts with editedPassword := some v }
  | .sharedPassword, v => { ts with sharedPassword := some v }
  | .shareWith, v => { ts with shareWith := some v }
  | .exportedResources, v => { ts with exportedResources := some v }

/-- Modelled from the spec: the module `model/tabStorage` is not part of the
sources; the store is a map from tab id to a map from key to value. -/
abbrev Store := TabId → TabState

/-- Modelled from the spec: `TabStorage.get(tabId, key)` gives the value or
undefined. -/
def TabStorage.get (s : Store) (tabId : TabId) (k : Key) : Option k.Val :=
  (s tabId).get k

/-- Modelled from the spec: `TabStorage.set(tabId, key, value)` writes one key
of one tab. -/
def TabStorage.set (s : Store) (tabId : TabId) (k : Key) (v : k.Val) : Store :=
  fun t => if t = tabId then (s tabId).set k v else s t

/-! ## Messages and effects -/

/-- Argument of a message emitted on a port. -/
inductive Payload where
  | undefined
  | str (s : String)
  | strings (l : List String)
  | object (o : JsObject)
  | error (e : JsError)
  | fieldErrors (v : List (String × String))
  | editedPassword (p : EditedPassword)
deriving DecidableEq, Repr

/-- Port a message is emitted on: the port of the worker the handler is
registered for, or the port of the worker registered under a name in the tab. -/
inductive Port where
  | self
  | named (name : String)
deriving DecidableEq, Repr

/-- Permission record passed to `Resource.simulateShare`. -/
structure Permission where
  aco : String
  aro : String
  aro_foreign_key : String
  type : Nat
deriving DecidableEq, Repr

/-- Item of the list passed to `crypto.encryptAll`. -/
structure EncryptItem where
  userId : String
  message : String
deriving DecidableEq, Repr

/-- Observable effect of a handler. -/
inductive Effect where
  | emit (port : Port) (event : String) (args : List Payload)
  | masterPasswordGet
  | decrypt (armored : String) (masterPassword : String)
  | keyringSync
  | simulateShare (resourceId : String) (permissions : List Permission)
  | encryptAll (items : List EncryptItem)
  | validate (data : String)
  | progressOpen (label : String) (goals : Nat)
  | progressUpdateGoals (goals : Nat)
  | progressUpdate (completed : Nat) (label : Option String)
  | progressClose
  | uncaught (e : JsError)
  | unhandledRejection (e : JsError)
deriving DecidableEq, Repr

/-- Result of a handler run. -/
structure Run where
  store : Store
  trace : List Effect

/-- Callback invocation made by `crypto.encryptAll`: the start callback, or
the completion callback with a position. -/
inductive Callback where
  | start
  | complete (position : Nat)
deriving DecidableEq, Repr

/-- What one call of `crypto.encryptAll` does: the callbacks it invokes, in
order, and the value it resolves with or the error it rejects with. -/
structure EncryptAllRun where
  calls : List Callback
  result : Except JsError (List String)

/-- Answer of `Resource.simulateShare`: `response.changes.added`. -/
structure ShareResponse where
  added : List Aro
deriving DecidableEq, Repr

/-- The collaborators required from other modules. -/
structure Env where
  masterPassword : Except JsError String
  decrypt : String → String → Except JsError String
  sync : Except JsError Unit
  simulateShare : String → List Permission → Except JsError ShareResponse
  encryptAll : List EncryptItem → EncryptAllRun
  validate : String → Except JsError Unit
  workerExists : String → TabId → Bool
  getAllKeys : TabId → List String

/-- Modelled from the spec: `Worker.get(name, tabId)` fails with NotFound when
no worker is registered under that name for the tab; the module `model/worker`
is not part of the sources. -/
def notFound (name : String) : JsError :=
  ⟨"NotFound: " ++ name, none⟩

/-- Status arguments of a reply. -/
def SUCCESS : Payload := .str "SUCCESS"

def ERROR : Payload := .str "ERROR"

/-- Value of `e.validationErrors` as a message argument. -/
def validationErrorsOf (e : JsError) : Payload :=
  match e.validationErrors with
  | none => .undefined
  | some v => .fieldErrors v

/-! ## The per recipient loop -/

/-- Label built by the completion callback:
`'Encrypting ' + position + '/' + length`. -/
def encryptingLabel (position goals : Nat) : String :=
  "Encrypting " ++ toString position ++ "/" ++ toString goals

/-- The two callbacks passed to `crypto.encryptAll`, run over the calls that
`encryptAll` makes. They share the counter `progress`: the start callback does
`update(worker, progress++)`, the completion callback does
`update(worker, progress, label)`. -/
def runCallbacks (goals : Nat) : Nat → List Callback → List Effect
  | _, [] => []
  | progress, .start :: rest =>
    .progressUpdate progress none :: runCallbacks goals (progress + 1) rest
  | progress, .complete position :: rest =>
    .progressUpdate progress (some (encryptingLabel position goals))
      :: runCallbacks goals progress rest

/-- Loop `for (var i in data) { armoreds[usersIds[i]] = data[i]; }` of the
secret edit handler, from index `i` on. An index past the end of `usersIds`
reads undefined, which as a property key is the string "undefined". -/
def assembleEditFrom (usersIds : List String) : Nat → List String → JsObject → JsObject
  | _, [], armoreds => armoreds
  | i, d :: rest, armoreds =>
    assembleEditFrom usersIds (i + 1) rest
      (armoreds.set ((usersIds.get? i).getD "undefined") d)

def assembleEdit (usersIds data : List String) : JsObject :=
  assembleEditFrom usersIds 0 data []

/-- Loop `for (var i in data) { armoreds[addedUsers[i].User.id] = data[i]; }`
of the share handler, from index `i` on. Reading `.User.id` throws when
`addedUsers[i]` is undefined or has no `User`. -/
def assembleShareFrom (addedUsers : List Aro) :
    Nat → List String → JsObject → Except JsError JsObject
  | _, [], armoreds => .ok armoreds
  | i, d :: rest, armoreds =>
    match addedUsers.get? i with
    | some (.User id) => assembleShareFrom addedUsers (i + 1) rest (armoreds.set id d)
    | some (.Group _) => .error (typeError "addedUsers[i].User is undefined")
    | none => .error (typeError "addedUsers[i] is undefined")

def assembleShare (addedUsers : List Aro) (data : List String) : Except JsError JsObject :=
  assembleShareFrom addedUsers 0 data []

/-- The call `addedUsers.map(function(addedUser) {...})` of the share handler:
one item per added user, keyed by `addedUser.User.id`; it throws at the first
entry without `User`. -/
def encryptItems (secret : String) : List Aro → Except JsError (List EncryptItem)
  | [] => .ok []
  | .User id :: rest =>
    match encryptItems secret rest with
    | .ok items => .ok (⟨id, secret⟩ :: items)
    | .error e => .error e
  | .Group _ :: _ => .error (typeError "addedUser.User is undefined")

/-- Permission built for one aro of `shareWith`. -/
def Aro.permission : Aro → Permission
  | .User id => ⟨"Resource", "User", id, 1⟩
  | .Group id => ⟨"Resource", "Group", id, 1⟩

/-- The expression `aros[i].User ? aros[i].User.id : aros[i].Group.id`. -/
def Aro.aroId : Aro → String
  | .User id => id
  | .Group id => id

/-! ## Handlers of appEvents.js -/

/-- Loop of the window resize handler over `Worker.getAllKeys(worker.tab.id)`:
each worker of the tab gets the event. -/
def broadcast (env : Env) (tabId : TabId) (event : String) (args : List Payload) :
    List String → List Effect
  | [] => []
  | name :: rest =>
    if env.workerExists name tabId then
      .emit (.named name) event args :: broadcast env tabId event args rest
    else [.uncaught (notFound name)]

/-- Handler of passbolt.app.window-resized. -/
def windowResized (env : Env) (tabId : TabId) (cssClasses : List String) (s : Store) : Run :=
  ⟨s, broadcast env tabId "passbolt.app.window-resized" [.strings cssClasses]
    (env.getAllKeys tabId)⟩

/-- Handler of passbolt.secret-edit.focus. -/
def secretEditFocus (env : Env) (tabId : TabId) (s : Store) : Run :=
  if env.workerExists "Secret" tabId then
    ⟨s, [.emit (.named "Secret") "passbolt.secret-edit.focus" []]⟩
  else ⟨s, [.uncaught (notFound "Secret")]⟩

/-- The catch block of the validate handler. -/
def secretEditValidateCatch (env : Env) (tabId : TabId) (requestId : String)
    (tr : List Effect) (e : JsError) : List Effect :=
  if env.workerExists "Secret" tabId then
    tr ++ [.emit (.named "Secret") "passbolt.secret-edit.validate-error"
             [.str e.message, validationErrorsOf e],
           .emit .self requestId [ERROR, .str e.message, validationErrorsOf e]]
  else tr ++ [.uncaught (notFound "Secret")]

/-- The end of the try block of the validate handler, after the validation. -/
def secretEditValidateDone (env : Env) (tabId : TabId) (requestId : String)
    (tr : List Effect) : List Effect :=
  if env.workerExists "Secret" tabId then
    tr ++ [.emit (.named "Secret") "passbolt.secret-edit.validate-success" [],
           .emit .self requestId [SUCCESS]]
  else secretEditValidateCatch env tabId requestId tr (notFound "Secret")

/-- Handler of passbolt.secret-edit.validate. -/
def secretEditValidate (env : Env) (tabId : TabId) (requestId : String) (s : Store) : Run :=
  match TabStorage.get s tabId .editedPassword with
  | none =>
    ⟨s, secretEditValidateCatch env tabId requestId []
          (typeError "editedPassword is undefined")⟩
  | some editedPassword =>
    match editedPassword.secret with
    | none => ⟨s, secretEditValidateDone env tabId requestId []⟩
    | some data =>
      match env.validate data with
      | .error e => ⟨s, secretEditValidateCatch env tabId requestId [.validate data] e⟩
      | .ok _ => ⟨s, secretEditValidateDone env tabId requestId [.validate data]⟩

/-- Handler of passbolt.secret-edit.encrypt. The promise chain has no
rejection callback. -/
def secretEditEncrypt (env : Env) (tabId : TabId) (requestId : String)
    (usersIds : List String) (s : Store) : Run :=
  match TabStorage.get s tabId .editedPassword with
  | none => ⟨s, [.uncaught (typeError "editedPassword is undefined")]⟩
  | some editedPassword =>
    match editedPassword.secret with
    | none => ⟨s, [.emit .self requestId [SUCCESS, .object []]]⟩
    | some secret =>
      match env.sync with
      | .error e =>
        ⟨s, [.progressOpen "Encrypting ..." usersIds.length, .keyringSync,
             .unhandledRejection e]⟩
      | .ok _ =>
        let encryptAllData : List EncryptItem :=
          usersIds.map (fun userId => ⟨userId, secret⟩)
        let tr : List Effect :=
          [.progressOpen "Encrypting ..." usersIds.length, .keyringSync,
           .encryptAll encryptAllData]
            ++ runCallbacks usersIds.length 0 (env.encryptAll encryptAllData).calls
        match (env.encryptAll encryptAllData).result with
        | .error e => ⟨s, tr ++ [.unhandledRejection e]⟩
        | .ok data =>
          ⟨s, tr ++ [.emit .self requestId [SUCCESS, .object (assembleEdit usersIds data)],
                     .progressClose]⟩

/-- Handler of passbolt.app.share-password-init. -/
def sharePasswordInit (tabId : TabId) (requestId : String) (sharedPassword : SharedPassword)
    (s : Store) : Run :=
  ⟨TabStorage.set (TabStorage.set s tabId .sharedPassword sharedPassword) tabId .shareWith [],
   [.emit .self requestId [SUCCESS]]⟩

/-- The rejection callback at the end of the share chain:
`worker.port.emit(requestId, 'ERROR', error)`. -/
def shareEncryptRejected (requestId : String) (s : Store) (tr : List Effect)
    (error : JsError) : Run :=
  ⟨s, tr ++ [.emit .self requestId [ERROR, .error error]]⟩

/-- The last two fulfilment callbacks of the share chain: encrypt for the
added users, then build the answer. -/
def shareEncryptAdded (env : Env) (requestId : String) (secret : String)
    (addedUsers : List Aro) (s : Store) (tr : List Effect) : Run :=
  match encryptItems secret addedUsers with
  | .error e =>
    shareEncryptRejected requestId s (tr ++ [.progressUpdateGoals addedUsers.length]) e
  | .ok encryptAllData =>
    let tr5 : List Effect :=
      tr ++ [.progressUpdateGoals addedUsers.length, .encryptAll encryptAllData]
        ++ runCallbacks addedUsers.length 0 (env.encryptAll encryptAllData).calls
    match (env.encryptAll encryptAllData).result with
    | .error e => shareEncryptRejected requestId s tr5 e
    | .ok data =>
      match assembleShare addedUsers data with
      | .error e => shareEncryptRejected requestId s tr5 e
      | .ok armoreds =>
        ⟨s, tr5 ++ [.emit .self requestId [SUCCESS, .object armoreds], .progressClose]⟩

/-- Handler of passbolt.share.encrypt. The assignment
`sharedPassword.secret = secret` changes the object held by the tab storage. -/
def shareEncrypt (env : Env) (tabId : TabId) (requestId : String) (s : Store) : Run :=
  match TabStorage.get s tabId .shareWith with
  | none => ⟨s, [.uncaught (typeError "aros is undefined")]⟩
  | some aros =>
    if aros.length = 0 then ⟨s, [.emit .self requestId [SUCCESS, .object []]]⟩
    else
      match env.masterPassword with
      | .error e => shareEncryptRejected requestId s [.masterPasswordGet] e
      | .ok masterPassword =>
        match TabStorage.get s tabId .sharedPassword with
        | none =>
          shareEncryptRejected requestId s
            [.masterPasswordGet, .progressOpen "Encrypting ..." 100]
            (typeError "sharedPassword is undefined")
        | some sharedPassword =>
          let tr2 : List Effect :=
            [.masterPasswordGet, .progressOpen "Encrypting ..." 100,
             .decrypt sharedPassword.armored masterPassword]
          match env.decrypt sharedPassword.armored masterPassword with
          | .error e => shareEncryptRejected requestId s tr2 e
          | .ok secret =>
            let s3 : Store :=
              TabStorage.set s tabId .sharedPassword { sharedPassword with secret := some secret }
            match env.sync with
            | .error e => shareEncryptRejected requestId s3 (tr2 ++ [.keyringSync]) e
            | .ok _ =>
              let permissions := aros.map Aro.permission
              let tr4 : List Effect :=
                tr2 ++ [.keyringSync, .simulateShare sharedPassword.resourceId permissions]
              match env.simulateShare sharedPassword.resourceId permissions with
              | .error e => shareEncryptRejected requestId s3 tr4 e
              | .ok response => shareEncryptAdded env requestId secret response.added s3 tr4

/-- Loop `for (var i in aros) {...}` of the remove permission handler. The
keys of the array are taken when the loop starts; a key that is no longer in
the array when its turn comes (the array got shorter) is not visited;
`aros.splice(i, 1)` removes the element at index `i` in place, so the elements
after it move one index down. -/
def removeLoop (removedAroId : String) : List Nat → List Aro → List Aro
  | [], aros => aros
  | i :: keys, aros =>
    match aros.get? i with
    | none => removeLoop removedAroId keys aros
    | some aro =>
      if aro.aroId = removedAroId then removeLoop removedAroId keys (aros.eraseIdx i)
      else removeLoop removedAroId keys aros

/-- List written back by the remove permission handler. -/
def removePermissionList (removedAroId : String) (aros : List Aro) : List Aro :=
  removeLoop removedAroId (List.range aros.length) aros

/-- Handler of passbolt.share.remove-permission. -/
def shareRemovePermission (tabId : TabId) (removedAroId : String) (s : Store) : Run :=
  let aros := (TabStorage.get s tabId .shareWith).getD []
  ⟨TabStorage.set s tabId .shareWith (removePermissionList removedAroId aros), []⟩

/-- The catch callback of the decrypt and copy chain. -/
def decryptCopyRejected (requestId : String) (s : Store) (tr : List Effect)
    (error : JsError) : Run :=
  ⟨s, tr ++ [.emit .self "passbolt.progress.close-dialog" [],
             .emit .self requestId [ERROR, .str error.message]]⟩

/-- Handler of passbolt.app.decrypt-copy. -/
def appDecryptCopy (env : Env) (tabId : TabId) (requestId : String) (armored : String)
    (s : Store) : Run :=
  match env.masterPassword with
  | .error e => decryptCopyRejected requestId s [.masterPasswordGet] e
  | .ok masterPassword =>
    let tr : List Effect :=
      [.masterPasswordGet,
       .emit .self "passbolt.progress.open-dialog" [.str "Decrypting..."],
       .decrypt armored masterPassword]
    match env.decrypt armored masterPassword with
    | .error e => decryptCopyRejected requestId s tr e
    | .ok decrypted =>
      if env.workerExists "ClipboardIframe" tabId then
        ⟨s, tr ++ [.emit (.named "ClipboardIframe") "passbolt.clipboard-iframe.copy"
                     [.str decrypted],
                   .emit .self "passbolt.progress.close-dialog" [],
                   .emit .self requestId [SUCCESS, .str decrypted]]⟩
      else decryptCopyRejected requestId s tr (notFound "ClipboardIframe")

/-- Handler of passbolt.app.export-passwords-init. -/
def exportPasswordsInit (tabId : TabId) (requestId : String) (resources : List String)
    (s : Store) : Run :=
  ⟨TabStorage.set s tabId .exportedResources resources, [.emit .self requestId [SUCCESS]]⟩

/-- Events that `appEvents.listen` registers a handler for, with their
arguments. -/
inductive AppEvent where
  | windowResized (cssClasses : List String)
  | secretEditFocus
  | secretEditValidate (requestId : String)
  | secretEditEncrypt (requestId : String) (usersIds : List String)
  | sharePasswordInit (requestId : String) (sharedPassword : SharedPassword)
  | shareEncrypt (requestId : String)
  | shareRemovePermission (removedAroId : String)
  | decryptCopy (requestId : String) (armored : String)
  | exportPasswordsInit (requestId : String) (resources : List String)

/-- The handlers registered by `listen` of appEvents.js for a worker of tab
`tabId`. -/
def appEvents.listen (env : Env) (tabId : TabId) : AppEvent → Store → Run
  | .windowResized cssClasses => windowResized env tabId cssClasses
  | .secretEditFocus => secretEditFocus env tabId
  | .secretEditValidate requestId => secretEditValidate env tabId requestId
  | .secretEditEncrypt requestId usersIds => secretEditEncrypt env tabId requestId usersIds
  | .sharePasswordInit requestId sharedPassword => sharePasswordInit tabId requestId sharedPassword
  | .shareEncrypt requestId => shareEncrypt env tabId requestId
  | .shareRemovePermission removedAroId => shareRemovePermission tabId removedAroId
  | .decryptCopy requestId armored => appDecryptCopy env tabId requestId armored
  | .exportPasswordsInit requestId resources => exportPasswordsInit tabId requestId resources

/-! ## Handlers of editPasswordEvents.js -/

/-- Handler of passbolt.edit-password.set-edited-password. -/
def setEditedPassword (tabId : TabId) (requestId : String) (editedPassword : EditedPassword)
    (s : Store) : Run :=
  ⟨TabStorage.set s tabId .editedPassword editedPassword, [.emit .self requestId [SUCCESS]]⟩

/-- Handler of passbolt.edit-password.get-edited-password. -/
def getEditedPassword (tabId : TabId) (requestId : String) (s : Store) : Run :=
  match TabStorage.get s tabId .editedPassword with
  | none => ⟨s, [.emit .self requestId [SUCCESS, .undefined]]⟩
  | some editedPassword => ⟨s, [.emit .self requestId [SUCCESS, .editedPassword editedPassword]]⟩

inductive EditPasswordEvent where
  | setEditedPassword (requestId : String) (editedPassword : EditedPassword)
  | getEditedPassword (requestId : String)

/-- The handlers registered by `listen` of editPasswordEvents.js for a worker
of tab `tabId`. -/
def editPasswordEvents.listen (tabId : TabId) : EditPasswordEvent → Store → Run
  | .setEditedPassword requestId editedPassword => setEditedPassword tabId requestId editedPassword
  | .getEditedPassword requestId => getEditedPassword tabId requestId

/-! ## Reading a trace -/

/-- Arguments of the effect when it is an envelope emitted on the port of the
worker under the name `requestId`. -/
def Effect.replyOn (requestId : String) : Effect → Option (List Payload)
  | .emit .self event args => if event = requestId then some args else none
  | _ => none

/-- Envelopes emitted on the port of the worker under the name `requestId`,
in order. -/
def repliesOn (requestId : String) (tr : List Effect) : List (List Payload) :=
  tr.filterMap (Effect.replyOn requestId)

/-- Calls to the stages of the share pipeline and to the progress dialog. -/
def Effect.isCollaboratorCall : Effect → Bool
  | .masterPasswordGet => true
  | .decrypt _ _ => true
  | .keyringSync => true
  | .simulateShare _ _ => true
  | .encryptAll _ => true
  | .progressOpen _ _ => true
  | .progressUpdateGoals _ => true
  | .progressUpdate _ _ => true
  | .progressClose => true
  | _ => false

/-- Value of `current` when the effect is a call of
`progressDialogController.update`. -/
def Effect.progressValue : Effect → Option Nat
  | .progressUpdate completed _ => some completed
  | _ => none

/-- Values of `current` passed to `progressDialogController.update`, in order. -/
def progressValues (tr : List Effect) : List Nat :=
  tr.filterMap Effect.progressValue

/-- Items of the call when the effect is a call of `crypto.encryptAll`. -/
def Effect.encryptAllItems : Effect → Option (List EncryptItem)
  | .encryptAll items => some items
  | _ => none

/-- Arguments of the calls of `crypto.encryptAll`, in order. -/
def encryptAllCalls (tr : List Effect) : List (List EncryptItem) :=
  tr.filterMap Effect.encryptAllItems

/-- The four stage calls of the share pipeline that come before the
encryption. -/
def Effect.isStageCall : Effect → Bool
  | .masterPasswordGet => true
  | .decrypt _ _ => true
  | .keyringSync => true
  | .simulateShare _ _ => true
  | _ => false

/-- Position in the share pipeline of the stage an effect is the call of. -/
def Effect.stageIndex : Effect → Option Nat
  | .masterPasswordGet => some 1
  | .decrypt _ _ => some 2
  | .keyringSync => some 3
  | .simulateShare _ _ => some 4
  | .encryptAll _ => some 5
  | _ => none

/-- Stages 1 to 4 of the share pipeline. -/
inductive Stage where
  | authenticate
  | decrypt
  | syncKeyring
  | resolveDiff
deriving DecidableEq, Repr

def Stage.index : Stage → Nat
  | .authenticate => 1
  | .decrypt => 2
  | .syncKeyring => 3
  | .resolveDiff => 4

/-- The stage rejects with `e` and the stages before it succeed, for the
shared password and the aros the handler works on. -/
def rejectsAt (env : Env) (sharedPassword : SharedPassword) (aros : List Aro) (e : JsError) :
    Stage → Prop
  | .authenticate => env.masterPassword = .error e
  | .decrypt =>
    ∃ masterPassword, env.masterPassword = .ok masterPassword
      ∧ env.decrypt sharedPassword.armored masterPassword = .error e
  | .syncKeyring =>
    ∃ masterPassword secret, env.masterPassword = .ok masterPassword
      ∧ env.decrypt sharedPassword.armored masterPassword = .ok secret
      ∧ env.sync = .error e
  | .resolveDiff =>
    ∃ masterPassword secret, env.masterPassword = .ok masterPassword
      ∧ env.decrypt sharedPassword.armored masterPassword = .ok secret
      ∧ env.sync = .ok ()
      ∧ env.simulateShare sharedPassword.resourceId (aros.map Aro.permission) = .error e

/-- The assumption on `crypto.encryptAll` of the progress invariant: the items
are processed one after the other, and for the item at position `j` the start
callback is called once, then the completion callback once with `j`. These are
the calls for `n` items, the first one at position `j`. -/
def sequentialCallsFrom : Nat → Nat → List Callback
  | _, 0 => []
  | j, n + 1 => .start :: .complete j :: sequentialCallsFrom (j + 1) n

def sequentialCalls (n : Nat) : List Callback :=
  sequentialCallsFrom 1 n

/-- Walks a trace with the total that was set last (by open or updateGoals)
and the value of the previous update: each update must pass a value that is
not below the previous one and not above the total. -/
def progressWithinGoals : Option Nat → Nat → List Effect → Bool
  | _, _, [] => true
  | goals, previous, eff :: rest =>
    match eff with
    | .progressOpen _ g => progressWithinGoals (some g) previous rest
    | .progressUpdateGoals g => progressWithinGoals (some g) previous rest
    | .progressUpdate completed _ =>
      decide (previous ≤ completed)
        && (match goals with
            | some g => decide (completed ≤ g)
            | none => false)
        && progressWithinGoals goals completed rest
    | _ => progressWithinGoals goals previous rest

/-! ## Concrete inputs -/

/-- Collaborators that all succeed: `encryptAll` follows the sequential
protocol and answers with one text per item. -/
def okEnv : Env where
  masterPassword := .ok "passphrase"
  decrypt := fun _ _ => .ok "plaintext"
  sync := .ok ()
  simulateShare := fun _ _ => .ok ⟨[]⟩
  encryptAll := fun items =>
    ⟨sequentialCalls items.length, .ok (items.map (fun item => "pgp-" ++ item.userId))⟩
  validate := fun _ => .ok ()
  workerExists := fun _ _ => true
  getAllKeys := fun _ => ["App", "Secret"]

/-- Store where tab 1 edits a decrypted secret and shares with two users, and
tab 2 edits a secret that is not decrypted and shares with nobody. -/
def demoStore : Store := fun t =>
  if t = 1 then
    ⟨some ⟨some "plaintext"⟩, some ⟨"armored", "resource-1", none⟩,
      some [.User "u1", .User "u2"], none⟩
  else if t = 2 then
    ⟨some ⟨none⟩, some ⟨"armored-2", "resource-2", none⟩, some [], none⟩
  else TabState.empty

/-- Collaborators where the master password prompt is cancelled. -/
def cancelledEnv : Env :=
  { okEnv with masterPassword := .error ⟨"The user cancelled", none⟩ }

/-- Collaborators where the key ring synchronisation fails. -/
def syncFailureEnv : Env :=
  { okEnv with sync := .error ⟨"Keyring sync failed", none⟩ }

/-- Collaborators where `encryptAll` answers two items with two different
texts, in the order of the items. -/
def twoTextsEnv : Env :=
  { okEnv with
    encryptAll := fun _ => ⟨sequentialCalls 2, .ok ["pgp-first", "pgp-second"]⟩ }

/-- Collaborators where the simulation reports the second user as added. -/
def secondUserAddedEnv : Env :=
  { okEnv with simulateShare := fun _ _ => .ok ⟨[.User "u2"]⟩ }

/-- Collaborators where the simulation reports a user whose id is the key
`__proto__`. -/
def protoUserAddedEnv : Env :=
  { okEnv with simulateShare := fun _ _ => .ok ⟨[.User "__proto__"]⟩ }

/-- Collaborators where the simulation reports the same user twice. -/
def sameUserTwiceEnv : Env :=
  { twoTextsEnv with simulateShare := fun _ _ => .ok ⟨[.User "u2", .User "u2"]⟩ }

/-- The store `demoStore` with another content for tab 2. -/
def otherTabChangedStore : Store := fun t =>
  if t = 2 then ⟨some ⟨some "secret of tab 2"⟩, none, some [.Group "g7"], some ["r1"]⟩
  else demoStore t

/-- Store where tab 1 shares with three entries, two of them with the same id. -/
def repeatedAroStore : Store := fun t =>
  if t = 1 then ⟨none, none, some [.User "a", .Group "b", .User "a"], none⟩
  else TabState.empty

/-! ## Handlers of userEvents.js -/

/-- The user model required from `model/user`, and the page mod that the set
handler starts: each call returns a value or throws. -/
structure UserModel where
  get : List String → Except JsError JsObject
  getName : Except JsError JsObject
  getUsername : Except JsError String
  settingsGet : Except JsError JsObject
  settingsGetSecurityToken : Except JsError JsObject
  settingsGetDomain : Except JsError String
  validate : JsObject → List String → Except JsError JsObject
  set : JsObject → Except JsError Unit
  passboltAuthInit : Except JsError Unit
  setName : String → String → Except JsError Unit
  setUsername : String → Except JsError Unit
  setId : String → Except JsError Unit
  settingsSetSecurityToken : JsObject → Except JsError Unit
  settingsSetDomain : String → Except JsError Unit
  settingsValidate : JsObject → List String → Except JsError Unit
  storeMasterPasswordTemporarily : String → Nat → Except JsError Unit
  logout : Except JsError Unit

/-- The catch block shared by most handlers:
`worker.port.emit(requestId, 'ERROR', e.message)`. -/
def userError (requestId : String) (e : JsError) : List Effect :=
  [.emit .self requestId [ERROR, .str e.message]]

/-- Handler of passbolt.user.get. -/
def userGet (user : UserModel) (requestId : String) (data : List String) : List Effect :=
  match user.get data with
  | .ok u => [.emit .self requestId [SUCCESS, .object u]]
  | .error e => userError requestId e

/-- Handler of passbolt.user.get.name. -/
def userGetName (user : UserModel) (requestId : String) : List Effect :=
  match user.getName with
  | .ok name => [.emit .self requestId [SUCCESS, .object name]]
  | .error e => userError requestId e

/-- Handler of passbolt.user.get.username. -/
def userGetUsername (user : UserModel) (requestId : String) : List Effect :=
  match user.getUsername with
  | .ok username => [.emit .self requestId [SUCCESS, .str username]]
  | .error e => userError requestId e

/-- Handler of passbolt.user.settings.get. -/
def userSettingsGet (user : UserModel) (requestId : String) : List Effect :=
  match user.settingsGet with
  | .ok settings => [.emit .self requestId [SUCCESS, .object settings]]
  | .error e => userError requestId e

/-- Handler of passbolt.user.settings.get.securityToken. -/
def userSettingsGetSecurityToken (user : UserModel) (requestId : String) : List Effect :=
  match user.settingsGetSecurityToken with
  | .ok securityToken => [.emit .self requestId [SUCCESS, .object securityToken]]
  | .error e => userError requestId e

/-- Handler of passbolt.user.settings.get.domain. -/
def userSettingsGetDomain (user : UserModel) (requestId : String) : List Effect :=
  match user.settingsGetDomain with
  | .ok domain => [.emit .self requestId [SUCCESS, .str domain]]
  | .error e => userError requestId e

/-- Handler of passbolt.user.validate. -/
def userValidate (user : UserModel) (requestId : String) (u : JsObject)
    (fields : List String) : List Effect :=
  match user.validate u fields with
  | .ok validatedUser => [.emit .self requestId [SUCCESS, .object validatedUser]]
  | .error e => [.emit .self requestId [ERROR, .str e.message, validationErrorsOf e]]

/-- Handler of passbolt.user.set: `user.set(u)`, then
`app.pageMods.PassboltAuth.init()`, both inside the try block. -/
def userSet (user : UserModel) (requestId : String) (u : JsObject) : List Effect :=
  match user.set u with
  | .error e => userError requestId e
  | .ok _ =>
    match user.passboltAuthInit with
    | .error e => userError requestId e
    | .ok _ => [.emit .self requestId [SUCCESS]]

/-- Handler of passbolt.user.set.name. Its catch block is
`worker.port.emit(requestId, 'ERROR', e.validationErrors)`. -/
def userSetName (user : UserModel) (requestId : String) (firstname lastname : String) :
    List Effect :=
  match user.setName firstname lastname with
  | .ok _ => [.emit .self requestId [SUCCESS]]
  | .error e => [.emit .self requestId [ERROR, validationErrorsOf e]]

/-- Handler of passbolt.user.set.username. -/
def userSetUsername (user : UserModel) (requestId : String) (username : String) :
    List Effect :=
  match user.setUsername username with
  | .ok _ => [.emit .self requestId [SUCCESS]]
  | .error e => userError requestId e

/-- Handler of passbolt.user.setId. -/
def userSetId (user : UserModel) (requestId : String) (userid : String) : List Effect :=
  match user.setId userid with
  | .ok _ => [.emit .self requestId [SUCCESS]]
  | .error e => userError requestId e

/-- Handler of passbolt.user.settings.set.securityToken. -/
def userSettingsSetSecurityToken (user : UserModel) (requestId : String)
    (securityToken : JsObject) : List Effect :=
  match user.settingsSetSecurityToken securityToken with
  | .ok _ => [.emit .self requestId [SUCCESS]]
  | .error e => userError requestId e

/-- Handler of passbolt.user.settings.set.domain. -/
def userSettingsSetDomain (user : UserModel) (requestId : String) (domain : String) :
    List Effect :=
  match user.settingsSetDomain domain with
  | .ok _ => [.emit .self requestId [SUCCESS]]
  | .error e => userError requestId e

/-- Handler of passbolt.user.settings.validate. -/
def userSettingsValidate (user : UserModel) (requestId : String) (settingsData : JsObject)
    (fields : List String) : List Effect :=
  match user.settingsValidate settingsData fields with
  | .ok _ => [.emit .self requestId [SUCCESS, .object settingsData]]
  | .error e => [.emit .self requestId [ERROR, .str e.message, validationErrorsOf e]]

/-- Handler of passbolt.user.rememberMasterPassword. -/
def userRememberMasterPassword (user : UserModel) (requestId : String)
    (masterPassword : String) (seconds : Nat) : List Effect :=
  match user.storeMasterPasswordTemporarily masterPassword seconds with
  | .ok _ => [.emit .self requestId [SUCCESS]]
  | .error e => userError requestId e

/-- Handler of passbolt.user.logout: `user.logout()` is not inside a try
block. -/
def userLogout (user : UserModel) (requestId : String) : List Effect :=
  match user.logout with
  | .ok _ => [.emit .self requestId [SUCCESS]]
  | .error e => [.uncaught e]

/-- Events that `userEvents.listen` registers a handler for, with their
arguments. -/
inductive UserEvent where
  | get (requestId : String) (data : List String)
  | getName (requestId : String)
  | getUsername (requestId : String)
  | settingsGet (requestId : String)
  | settingsGetSecurityToken (requestId : String)
  | settingsGetDomain (requestId : String)
  | validate (requestId : String) (u : JsObject) (fields : List String)
  | set (requestId : String) (u : JsObject)
  | setName (requestId : String) (firstname lastname : String)
  | setUsername (requestId : String) (username : String)
  | setId (requestId : String) (userid : String)
  | settingsSetSecurityToken (requestId : String) (securityToken : JsObject)
  | settingsSetDomain (requestId : String) (domain : String)
  | settingsValidate (requestId : String) (settingsData : JsObject) (fields : List String)
  | rememberMasterPassword (requestId : String) (masterPassword : String) (seconds : Nat)
  | logout (requestId : String)

/-- The handlers registered by `listen` of userEvents.js. -/
def userEvents.listen (user : UserModel) : UserEvent → List Effect
  | .get requestId data => userGet user requestId data
  | .getName requestId => userGetName user requestId
  | .getUsername requestId => userGetUsername user requestId
  | .settingsGet requestId => userSettingsGet user requestId
  | .settingsGetSecurityToken requestId => userSettingsGetSecurityToken user requestId
  | .settingsGetDomain requestId => userSettingsGetDomain user requestId
  | .validate requestId u fields => userValidate user requestId u fields
  | .set requestId u => userSet user requestId u
  | .setName requestId firstname lastname => userSetName user requestId firstname lastname
  | .setUsername requestId username => userSetUsername user requestId username
  | .setId requestId userid => userSetId user requestId userid
  | .settingsSetSecurityToken requestId securityToken =>
    userSettingsSetSecurityToken user requestId securityToken
  | .settingsSetDomain requestId domain => userSettingsSetDomain user requestId domain
  | .settingsValidate requestId settingsData fields =>
    userSettingsValidate user requestId settingsData fields
  | .rememberMasterPassword requestId masterPassword seconds =>
    userRememberMasterPassword user requestId masterPassword seconds
  | .logout requestId => userLogout user requestId

/-- Request id of a user event. -/
def UserEvent.requestId : UserEvent → String
  | .get requestId _ => requestId
  | .getName requestId => requestId
  | .getUsername requestId => requestId
  | .settingsGet requestId => requestId
  | .settingsGetSecurityToken requestId => requestId
  | .settingsGetDomain requestId => requestId
  | .validate requestId _ _ => requestId
  | .set requestId _ => requestId
  | .setName requestId _ _ => requestId
  | .setUsername requestId _ => requestId
  | .setId requestId _ => requestId
  | .settingsSetSecurityToken requestId _ => requestId
  | .settingsSetDomain requestId _ => requestId
  | .settingsValidate requestId _ _ => requestId
  | .rememberMasterPassword requestId _ _ => requestId
  | .logout requestId => requestId

/-- Outcome of an `Except` without its value. -/
def outcomeOf {α : Type} : Except JsError α → Except JsError Unit
  | .ok _ => .ok ()
  | .error e => .error e

/-- Outcome of the calls that the handler of a user event makes: it returns,
or it throws an error. -/
def UserEvent.modelCall (user : UserModel) : UserEvent → Except JsError Unit
  | .get _ data => outcomeOf (user.get data)
  | .getName _ => outcomeOf user.getName
  | .getUsername _ => outcomeOf user.getUsername
  | .settingsGet _ => outcomeOf user.settingsGet
  | .settingsGetSecurityToken _ => outcomeOf user.settingsGetSecurityToken
  | .settingsGetDomain _ => outcomeOf user.settingsGetDomain
  | .validate _ u fields => outcomeOf (user.validate u fields)
  | .set _ u =>
    match user.set u with
    | .ok _ => user.passboltAuthInit
    | .error e => .error e
  | .setName _ firstname lastname => user.setName firstname lastname
  | .setUsername _ username => user.setUsername username
  | .setId _ userid => user.setId userid
  | .settingsSetSecurityToken _ securityToken => user.settingsSetSecurityToken securityToken
  | .settingsSetDomain _ domain => user.settingsSetDomain domain
  | .settingsValidate _ settingsData fields => user.settingsValidate settingsData fields
  | .rememberMasterPassword _ masterPassword seconds =>
    user.storeMasterPasswordTemporarily masterPassword seconds
  | .logout _ => user.logout

/-- The reply that the claim on the user events asks for when the model call
throws `e`: ERROR with `e.message`, followed by `e.validationErrors` for the
two validation handlers. -/
def UserEvent.errorReply (e : JsError) : UserEvent → List Payload
  | .validate _ _ _ => [ERROR, .str e.message, validationErrorsOf e]
  | .settingsValidate _ _ _ => [ERROR, .str e.message, validationErrorsOf e]
  | _ => [ERROR, .str e.message]

/-- The user events whose handler answers an error as the claim asks: all but
set.name and logout. -/
def UserEvent.answersWithMessage : UserEvent → Bool
  | .setName _ _ _ => false
  | .logout _ => false
  | _ => true

/-! ## The permissions of the share handler -/

/-- The loop `aros.forEach(function (aro) {...})` of the share handler as it is
written: each aro pushes one permission at the end of `permissions`. -/
def pushPermissions : List Permission → List Aro → List Permission
  | permissions, [] => permissions
  | permissions, aro :: rest =>
    pushPermissions
      (permissions ++ [match aro with
        | .User id => ⟨"Resource", "User", id, 1⟩
        | .Group id => ⟨"Resource", "Group", id, 1⟩])
      rest

/-- Arguments of the effect when it is a call of `Resource.simulateShare`. -/
def Effect.simulateShareArgs : Effect → Option (String × List Permission)
  | .simulateShare resourceId permissions => some (resourceId, permissions)
  | _ => none

/-- Arguments of the calls of `Resource.simulateShare`, in order. -/
def simulateShareCalls (tr : List Effect) : List (String × List Permission) :=
  tr.filterMap Effect.simulateShareArgs

/-- Stages 1 to 4 of the share pipeline succeed, the added entries are the
users `ids`, and `encryptAll` rejects with `e`. -/
def encryptRejects (env : Env) (sharedPassword : SharedPassword) (aros : List Aro)
    (e : JsError) : Prop :=
  ∃ (masterPassword secret : String) (ids : List String),
    env.masterPassword = .ok masterPassword
      ∧ env.decrypt sharedPassword.armored masterPassword = .ok secret
      ∧ env.sync = .ok ()
      ∧ env.simulateShare sharedPassword.resourceId (aros.map Aro.permission)
          = .ok ⟨ids.map Aro.User⟩
      ∧ (env.encryptAll (ids.map (fun id => ⟨id, secret⟩))).result = .error e

/-! ## More concrete inputs -/

/-- Collaborators where the decryption fails. -/
def decryptFailureEnv : Env :=
  { okEnv with decrypt := fun _ _ => .error ⟨"Wrong passphrase", none⟩ }

/-- Collaborators where no worker is registered under any name. -/
def noWorkerEnv : Env :=
  { okEnv with workerExists := fun _ _ => false }

/-- Collaborators where the validation of the secret fails. -/
def invalidSecretEnv : Env :=
  { okEnv with
    validate := fun _ => .error ⟨"The secret is not valid", some [("data", "too long")]⟩ }

/-- User model where every call returns. -/
def okUser : UserModel where
  get := fun _ => .ok [("username", "ada@passbolt.com")]
  getName := .ok [("firstname", "Ada"), ("lastname", "Lovelace")]
  getUsername := .ok "ada@passbolt.com"
  settingsGet := .ok [("domain", "https://www.passbolt.test")]
  settingsGetSecurityToken := .ok [("code", "ADA")]
  settingsGetDomain := .ok "https://www.passbolt.test"
  validate := fun u _ => .ok u
  set := fun _ => .ok ()
  passboltAuthInit := .ok ()
  setName := fun _ _ => .ok ()
  setUsername := fun _ => .ok ()
  setId := fun _ => .ok ()
  settingsSetSecurityToken := fun _ => .ok ()
  settingsSetDomain := fun _ => .ok ()
  settingsValidate := fun _ _ => .ok ()
  storeMasterPasswordTemporarily := fun _ _ => .ok ()
  logout := .ok ()

/-- User model where the logout and the change of the name throw. -/
def failingUser : UserModel :=
  { okUser with
    logout := .error ⟨"The user is not logged in", none⟩
    setName := fun _ _ =>
      .error ⟨"The firstname is not valid", some [("firstname", "empty")]⟩ }

/-! ## Lemmas on the loops -/

theorem lookup_eq_none_of_not_mem (obj : JsObject) (key : String)
    (h : key ∉ obj.map Prod.fst) : obj.lookup key = none := by
  induction obj with
  | nil => rfl
  | cons kv rest ih =>
    obtain ⟨k, v⟩ := kv
    have hk : ¬ key = k := fun hk => h (by simp [hk])
    have hrest : key ∉ rest.map Prod.fst := fun hm => h (by simp at hm ⊢; exact Or.inr hm)
    have hbeq : (key == k) = false := by simpa using hk
    simp only [List.lookup_cons, hbeq]
    exact ih hrest

theorem lookup_of_mem_of_nodup (obj : JsObject) (key value : String)
    (hnodup : (obj.map Prod.fst).Nodup) (hmem : (key, value) ∈ obj) :
    JsObject.get obj key = some value := by
  induction obj with
  | nil => exact absurd hmem (List.not_mem_nil _)
  | cons kv rest ih =>
    obtain ⟨k, v⟩ := kv
    simp only [List.map_cons, List.nodup_cons] at hnodup
    rcases List.mem_cons.mp hmem with h | h
    · cases h
      simp [JsObject.get, List.lookup_cons]
    · have hne : ¬ key = k := by
        intro hk
        exact hnodup.1 (hk ▸ List.mem_map_of_mem Prod.fst h)
      have hbeq : (key == k) = false := by simpa using hne
      have := ih hnodup.2 h
      simp only [JsObject.get] at this
      simp only [JsObject.get, List.lookup_cons, hbeq]
      exact this

theorem JsObject.insertIndex_perm (n : Nat) (key value : String) :
    ∀ obj : JsObject, (JsObject.insertIndex n key value obj).Perm ((key, value) :: obj) := by
  intro obj
  induction obj with
  | nil => exact List.Perm.refl _
  | cons kv rest ih =>
    obtain ⟨k, v⟩ := kv
    simp only [JsObject.insertIndex]
    cases arrayIndex k with
    | none => exact List.Perm.refl _
    | some m =>
      by_cases h : n < m
      · simp only [h, if_true]; exact List.Perm.refl _
      · simp only [h, if_false]
        exact (List.Perm.cons _ ih).trans (List.Perm.swap _ _ _)

theorem JsObject.add_perm (obj : JsObject) (key value : String) :
    (JsObject.add obj key value).Perm ((key, value) :: obj) := by
  simp only [JsObject.add]
  cases arrayIndex key with
  | none => exact List.perm_append_singleton _ _
  | some n => exact JsObject.insertIndex_perm n key value obj

theorem JsObject.set_perm_of_new (obj : JsObject) (key value : String)
    (hproto : key ≠ "__proto__") (hnew : key ∉ obj.map Prod.fst) :
    (JsObject.set obj key value).Perm ((key, value) :: obj) := by
  simp only [JsObject.set, hproto, if_false, lookup_eq_none_of_not_mem obj key hnew]
  exact JsObject.add_perm obj key value

theorem assembleEditFrom_perm (usersIds : List String) :
    ∀ (data : List String) (i : Nat) (armoreds : JsObject),
      (usersIds.drop i).Nodup →
      "__proto__" ∉ usersIds.drop i →
      (∀ k ∈ usersIds.drop i, k ∉ armoreds.map Prod.fst) →
      data.length = (usersIds.drop i).length →
      (assembleEditFrom usersIds i data armoreds).Perm
        (armoreds ++ (usersIds.drop i).zip data) := by
  intro data
  induction data with
  | nil => intro i armoreds _ _ _ _; simp [assembleEditFrom]
  | cons d rest ih =>
    intro i armoreds hnd hproto hdisj hlen
    have hi : i < usersIds.length := by
      simp only [List.length_cons, List.length_drop] at hlen; omega
    have hdrop : usersIds.drop i = usersIds[i] :: usersIds.drop (i + 1) :=
      List.drop_eq_getElem_cons hi
    have hlen2 : rest.length = (usersIds.drop (i + 1)).length := by
      simp only [List.length_cons, List.length_drop] at hlen ⊢; omega
    rw [hdrop] at hnd hdisj hproto
    have hget : usersIds.get? i = some usersIds[i] := by simp [hi]
    have hnot : usersIds[i] ∉ armoreds.map Prod.fst := hdisj _ (List.mem_cons_self _ _)
    have hkey : usersIds[i] ≠ "__proto__" :=
      fun h => hproto (h ▸ List.mem_cons_self _ _)
    have hset := JsObject.set_perm_of_new armoreds usersIds[i] d hkey hnot
    have hdisj2 : ∀ k ∈ usersIds.drop (i + 1),
        k ∉ (JsObject.set armoreds usersIds[i] d).map Prod.fst := by
      intro k hk hmem
      have hmem2 : k ∈ ((usersIds[i], d) :: armoreds).map Prod.fst :=
        ((hset.map Prod.fst).mem_iff).mp hmem
      simp only [List.map_cons, List.mem_cons] at hmem2
      rcases hmem2 with h | h
      · exact (List.nodup_cons.mp hnd).1 (h ▸ hk)
      · exact hdisj k (List.mem_cons_of_mem _ hk) h
    rw [assembleEditFrom, hget, Option.getD_some, hdrop, List.zip_cons_cons]
    refine (ih (i + 1) _ (List.nodup_cons.mp hnd).2
      (fun h => hproto (List.mem_cons_of_mem _ h)) hdisj2 hlen2).trans ?_
    refine (List.Perm.append_right _ hset).trans ?_
    exact List.perm_middle.symm

theorem assembleEdit_perm (usersIds data : List String) (hnd : usersIds.Nodup)
    (hproto : "__proto__" ∉ usersIds) (hlen : data.length = usersIds.length) :
    (assembleEdit usersIds data).Perm (usersIds.zip data) := by
  have := assembleEditFrom_perm usersIds data 0 [] (by simpa using hnd) (by simpa using hproto)
    (by simp) (by simpa using hlen)
  simpa [assembleEdit] using this

theorem assembleEdit_keys (usersIds data : List String) (hnd : usersIds.Nodup)
    (hproto : "__proto__" ∉ usersIds) (hlen : data.length = usersIds.length) :
    ((assembleEdit usersIds data).map Prod.fst).Perm usersIds := by
  have h := (assembleEdit_perm usersIds data hnd hproto hlen).map Prod.fst
  rwa [List.map_fst_zip _ _ (by omega)] at h

theorem assembleEdit_get (usersIds data : List String) (hnd : usersIds.Nodup)
    (hproto : "__proto__" ∉ usersIds) (hlen : data.length = usersIds.length)
    (i : Nat) (hi : i < usersIds.length) :
    JsObject.get (assembleEdit usersIds data) usersIds[i] = data[i]? := by
  have hperm := assembleEdit_perm usersIds data hnd hproto hlen
  have hkeys := assembleEdit_keys usersIds data hnd hproto hlen
  have hd : i < data.length := by omega
  have hmem : (usersIds[i], data[i]) ∈ usersIds.zip data := by
    rw [List.mem_iff_getElem]
    exact ⟨i, by simp [hi, hd], by simp⟩
  rw [List.getElem?_eq_getElem hd]
  exact lookup_of_mem_of_nodup _ _ _ (hkeys.nodup_iff.mpr hnd) (hperm.mem_iff.mpr hmem)

theorem assembleShareFrom_users (ids : List String) :
    ∀ (data : List String) (i : Nat) (armoreds : JsObject),
      i + data.length ≤ ids.length →
      assembleShareFrom (ids.map Aro.User) i data armoreds
        = .ok (assembleEditFrom ids i data armoreds) := by
  intro data
  induction data with
  | nil => intro i armoreds _; simp [assembleShareFrom, assembleEditFrom]
  | cons d rest ih =>
    intro i armoreds h
    have hi : i < ids.length := by simp at h; omega
    simp [assembleShareFrom, assembleEditFrom, hi]
    exact ih (i + 1) _ (by simp at h; omega)

theorem encryptItems_users (secret : String) : ∀ ids : List String,
    encryptItems secret (ids.map Aro.User) = .ok (ids.map (fun id => ⟨id, secret⟩)) := by
  intro ids
  induction ids with
  | nil => rfl
  | cons u us ih => simp [encryptItems, ih]

theorem removeLoop_no_match (r : String) : ∀ (keys : List Nat) (aros : List Aro),
    (∀ k ∈ keys, ∀ a, aros.get? k = some a → a.aroId ≠ r) →
    removeLoop r keys aros = aros := by
  intro keys
  induction keys with
  | nil => intro aros _; rfl
  | cons i keys ih =>
    intro aros h
    have ih2 := ih aros (fun k hk => h k (List.mem_cons_of_mem _ hk))
    cases hget : aros.get? i with
    | none => simp only [removeLoop, hget]; exact ih2
    | some a =>
      have hne := h i (List.mem_cons_self _ _) a hget
      simp only [removeLoop, hget, hne, if_false]; exact ih2

theorem filter_ne_of_no_match (r : String) (l : List Aro)
    (h : (l.filter (fun a => a.aroId = r)).length = 0) :
    l.filter (fun a => a.aroId ≠ r) = l := by
  have hnil := List.length_eq_zero.mp h
  rw [List.filter_eq_nil_iff] at hnil
  rw [List.filter_eq_self]
  intro a ha
  simpa using hnil a ha

theorem removeLoop_range (r : String) : ∀ (m i : Nat) (aros : List Aro),
    aros.length ≤ i + m →
    ((aros.drop i).filter (fun a => a.aroId = r)).length ≤ 1 →
    removeLoop r (List.range' i m) aros
      = aros.take i ++ (aros.drop i).filter (fun a => a.aroId ≠ r) := by
  intro m
  induction m with
  | zero =>
    intro i aros hlen _
    have : aros.drop i = [] := List.drop_eq_nil_of_le (by omega)
    simp [removeLoop, this, List.take_of_length_le (show aros.length ≤ i by omega)]
  | succ m ih =>
    intro i aros hlen hcount
    rw [List.range'_succ]
    cases hget : aros.get? i with
    | none =>
      have hi : aros.length ≤ i := by
        rcases Nat.lt_or_ge i aros.length with h | h
        · simp [List.get?_eq_getElem?, List.getElem?_eq_getElem h] at hget
        · exact h
      have h1 : aros.drop i = [] := List.drop_eq_nil_of_le hi
      have h2 : aros.drop (i + 1) = [] := List.drop_eq_nil_of_le (by omega)
      simp only [removeLoop, hget]
      rw [ih (i + 1) aros (by omega) (by simp [h2]), h1, h2,
        List.take_of_length_le hi, List.take_of_length_le (show aros.length ≤ i + 1 by omega)]
    | some a =>
      have hi : i < aros.length := by
        rcases Nat.lt_or_ge i aros.length with h | h
        · exact h
        · simp [List.get?_eq_getElem?, List.getElem?_eq_none h] at hget
      have ha : aros[i] = a := by
        simpa [List.get?_eq_getElem?, List.getElem?_eq_getElem hi] using hget
      have hdrop : aros.drop i = a :: aros.drop (i + 1) := by
        rw [← ha]; exact List.drop_eq_getElem_cons hi
      rw [hdrop] at hcount ⊢
      by_cases hr : a.aroId = r
      · have hrest : ((aros.drop (i + 1)).filter (fun a => a.aroId = r)).length = 0 := by
          simp only [List.filter, hr, decide_True, List.length_cons] at hcount
          omega
        have hfil := filter_ne_of_no_match r _ hrest
        have hnone : ∀ b ∈ aros.drop (i + 1), b.aroId ≠ r := by
          intro b hb hbr
          have : b ∈ (aros.drop (i + 1)).filter (fun a => a.aroId = r) := by
            simp [List.mem_filter, hb, hbr]
          rw [List.length_eq_zero.mp hrest] at this
          exact absurd this (List.not_mem_nil _)
        have herase : aros.eraseIdx i = aros.take i ++ aros.drop (i + 1) :=
          List.eraseIdx_eq_take_drop_succ aros i
        simp only [removeLoop, hget, hr, if_true]
        rw [removeLoop_no_match r _ (aros.eraseIdx i)]
        · rw [herase, List.filter_cons_of_neg (by simp [hr]), hfil]
        · intro k hk b hb
          have hk1 : i + 1 ≤ k := (List.mem_range'_1.mp hk).1
          apply hnone b
          rw [List.get?_eq_getElem?, List.getElem?_eraseIdx_of_ge _ _ _ (by omega)] at hb
          rw [List.mem_iff_getElem?]
          refine ⟨k - i, ?_⟩
          rw [List.getElem?_drop, ← hb]
          congr 1
          omega
      · have hc2 : ((aros.drop (i + 1)).filter (fun a => a.aroId = r)).length ≤ 1 := by
          simpa [List.filter, hr] using hcount
        simp only [removeLoop, hget, hr, if_false]
        have hget2 : aros[i]? = some a := by rw [← List.get?_eq_getElem?]; exact hget
        rw [ih (i + 1) aros (by omega) hc2, List.take_succ, hget2,
          List.filter_cons_of_pos (by simp [hr])]
        simp

theorem removePermissionList_unique (r : String) (aros : List Aro)
    (h : (aros.filter (fun a => a.aroId = r)).length ≤ 1) :
    removePermissionList r aros = aros.filter (fun a => a.aroId ≠ r) := by
  have := removeLoop_range r aros.length 0 aros (by omega) (by simpa using h)
  simpa [removePermissionList, List.range_eq_range'] using this

/-! ## Lemmas on traces -/

theorem repliesOn_append (requestId : String) (a b : List Effect) :
    repliesOn requestId (a ++ b) = repliesOn requestId a ++ repliesOn requestId b := by
  simp [repliesOn, List.filterMap_append]

theorem repliesOn_nil (requestId : String) : repliesOn requestId [] = [] := rfl

theorem repliesOn_cons (requestId : String) (eff : Effect) (tr : List Effect) :
    repliesOn requestId (eff :: tr)
      = match eff.replyOn requestId with
        | none => repliesOn requestId tr
        | some args => args :: repliesOn requestId tr := by
  cases h : eff.replyOn requestId <;> simp [repliesOn, List.filterMap_cons, h]

theorem repliesOn_runCallbacks (requestId : String) (goals : Nat) :
    ∀ (calls : List Callback) (progress : Nat),
      repliesOn requestId (runCallbacks goals progress calls) = [] := by
  intro calls
  induction calls with
  | nil => intro _; rfl
  | cons c rest ih =>
    intro progress
    cases c with
    | start => simpa [runCallbacks, repliesOn_cons, Effect.replyOn] using ih (progress + 1)
    | complete position => simpa [runCallbacks, repliesOn_cons, Effect.replyOn] using ih progress

theorem filter_isStageCall_runCallbacks (goals : Nat) :
    ∀ (calls : List Callback) (progress : Nat),
      (runCallbacks goals progress calls).filter Effect.isStageCall = [] := by
  intro calls
  induction calls with
  | nil => intro _; rfl
  | cons c rest ih =>
    intro progress
    cases c with
    | start => simpa [runCallbacks, Effect.isStageCall] using ih (progress + 1)
    | complete position => simpa [runCallbacks, Effect.isStageCall] using ih progress

theorem encryptAllCalls_append (a b : List Effect) :
    encryptAllCalls (a ++ b) = encryptAllCalls a ++ encryptAllCalls b := by
  simp [encryptAllCalls, List.filterMap_append]

theorem encryptAllCalls_runCallbacks (goals : Nat) :
    ∀ (calls : List Callback) (progress : Nat),
      encryptAllCalls (runCallbacks goals progress calls) = [] := by
  intro calls
  induction calls with
  | nil => intro _; rfl
  | cons c rest ih =>
    intro progress
    cases c with
    | start =>
      simpa [runCallbacks, encryptAllCalls, Effect.encryptAllItems] using ih (progress + 1)
    | complete position =>
      simpa [runCallbacks, encryptAllCalls, Effect.encryptAllItems] using ih progress

/-! ## The claims -/

/-- C1: in the share handler with a non empty shareWith, when one of the
stages authenticate, decrypt, key ring sync, diff resolution rejects with `e`,
exactly one envelope is emitted on the request id, no later stage is called,
and the envelope is ERROR with the error value `e` itself as argument, which
is not the string `e.message`. -/
theorem shareEncrypt_stage_rejection (env : Env) (tabId : TabId) (requestId : String)
    (s : Store) (sharedPassword : SharedPassword) (aros : List Aro) (e : JsError)
    (stage : Stage)
    (haros : TabStorage.get s tabId .shareWith = some aros) (hne : aros ≠ [])
    (hshared : TabStorage.get s tabId .sharedPassword = some sharedPassword)
    (hrej : rejectsAt env sharedPassword aros e stage) :
    repliesOn requestId (shareEncrypt env tabId requestId s).trace = [[ERROR, .error e]]
      ∧ (∀ eff ∈ (shareEncrypt env tabId requestId s).trace, ∀ k,
          eff.stageIndex = some k → k ≤ stage.index)
      ∧ [ERROR, Payload.error e] ≠ [ERROR, Payload.str e.message] := by
  refine ⟨?_, ?_, by simp⟩
  · cases stage with
    | authenticate =>
      simp only [rejectsAt] at hrej
      simp [shareEncrypt, haros, hne, hshared, hrej, shareEncryptRejected, repliesOn_cons,
        repliesOn_nil, Effect.replyOn]
    | decrypt =>
      obtain ⟨mp, h1, h2⟩ := hrej
      simp [shareEncrypt, haros, hne, hshared, h1, h2, shareEncryptRejected, repliesOn_cons,
        repliesOn_nil, Effect.replyOn]
    | syncKeyring =>
      obtain ⟨mp, secret, h1, h2, h3⟩ := hrej
      simp [shareEncrypt, haros, hne, hshared, h1, h2, h3, shareEncryptRejected,
        repliesOn_cons, repliesOn_nil, Effect.replyOn]
    | resolveDiff =>
      obtain ⟨mp, secret, h1, h2, h3, h4⟩ := hrej
      simp [shareEncrypt, haros, hne, hshared, h1, h2, h3, h4, shareEncryptRejected,
        repliesOn_cons, repliesOn_nil, Effect.replyOn]
  · cases stage with
    | authenticate =>
      simp only [rejectsAt] at hrej
      simp [shareEncrypt, haros, hne, hshared, hrej, shareEncryptRejected,
        Effect.stageIndex, Stage.index]
    | decrypt =>
      obtain ⟨mp, h1, h2⟩ := hrej
      simp [shareEncrypt, haros, hne, hshared, h1, h2, shareEncryptRejected,
        Effect.stageIndex, Stage.index]
    | syncKeyring =>
      obtain ⟨mp, secret, h1, h2, h3⟩ := hrej
      simp [shareEncrypt, haros, hne, hshared, h1, h2, h3, shareEncryptRejected,
        Effect.stageIndex, Stage.index]
    | resolveDiff =>
      obtain ⟨mp, secret, h1, h2, h3, h4⟩ := hrej
      simp [shareEncrypt, haros, hne, hshared, h1, h2, h3, h4, shareEncryptRejected,
        Effect.stageIndex, Stage.index]

theorem shareEncrypt_stage_rejection_witness :
    rejectsAt cancelledEnv ⟨"armored", "resource-1", none⟩ [.User "u1", .User "u2"]
        ⟨"The user cancelled", none⟩ .authenticate
      ∧ repliesOn "request-1" (shareEncrypt cancelledEnv 1 "request-1" demoStore).trace
          = [[ERROR, .error ⟨"The user cancelled", none⟩]] :=
  ⟨rfl,
   (shareEncrypt_stage_rejection cancelledEnv 1 "request-1" demoStore
      ⟨"armored", "resource-1", none⟩ [.User "u1", .User "u2"]
      ⟨"The user cancelled", none⟩ .authenticate (by decide) (by decide) (by decide) rfl).1⟩

/-- C2 (amended): in the secret edit handler, when the secret is decrypted, the
key ring sync succeeds, `encryptAll` answers with one text per item and the
recipient ids are pairwise distinct and none of them is `__proto__`, the only
envelope on the request id is SUCCESS with a map that has as many entries as
there are recipients and maps the i-th recipient to the i-th text. -/
theorem secretEditEncrypt_distinct_recipients (env : Env) (tabId : TabId)
    (requestId : String) (usersIds : List String) (s : Store)
    (editedPassword : EditedPassword) (secret : String) (data : List String)
    (hstored : TabStorage.get s tabId .editedPassword = some editedPassword)
    (hsecret : editedPassword.secret = some secret)
    (hsync : env.sync = .ok ())
    (hdata : (env.encryptAll (usersIds.map (fun userId => ⟨userId, secret⟩))).result
      = .ok data)
    (hlen : data.length = usersIds.length)
    (hnodup : usersIds.Nodup)
    (hproto : "__proto__" ∉ usersIds) :
    ∃ armoreds : JsObject,
      repliesOn requestId (secretEditEncrypt env tabId requestId usersIds s).trace
          = [[SUCCESS, .object armoreds]]
        ∧ armoreds.length = usersIds.length
        ∧ ∀ (i : Nat) (hi : i < usersIds.length),
            armoreds.get usersIds[i] = data[i]? := by
  refine ⟨assembleEdit usersIds data, ?_, ?_, ?_⟩
  · simp [secretEditEncrypt, hstored, hsecret, hsync, hdata, repliesOn_append,
      repliesOn_cons, repliesOn_nil, Effect.replyOn, repliesOn_runCallbacks]
  · rw [(assembleEdit_perm usersIds data hnodup hproto hlen).length_eq, List.length_zip]
    omega
  · intro i hi
    exact assembleEdit_get usersIds data hnodup hproto hlen i hi

theorem secretEditEncrypt_distinct_recipients_witness :
    repliesOn "request-2" (secretEditEncrypt okEnv 1 "request-2" ["u1", "u2"] demoStore).trace
        = [[SUCCESS, .object [("u1", "pgp-u1"), ("u2", "pgp-u2")]]]
      ∧ ∃ armoreds : JsObject,
          repliesOn "request-2"
              (secretEditEncrypt okEnv 1 "request-2" ["u1", "u2"] demoStore).trace
            = [[SUCCESS, .object armoreds]]
          ∧ armoreds.length = ["u1", "u2"].length
          ∧ ∀ (i : Nat) (hi : i < ["u1", "u2"].length),
              armoreds.get ["u1", "u2"][i] = ["pgp-u1", "pgp-u2"][i]? :=
  ⟨by decide,
   secretEditEncrypt_distinct_recipients okEnv 1 "request-2" ["u1", "u2"] demoStore
    ⟨some "plaintext"⟩ "plaintext" ["pgp-u1", "pgp-u2"] (by decide) rfl rfl rfl
    (by decide) (by decide) (by decide)⟩

/-- C2 (counterexample): for the recipients u1, u1 and two different texts the
map of the answer has one entry, not two, and u1 is mapped to the second
text, not to the first; for the single recipient `__proto__` the map of the
answer has no entry, not one. -/
theorem secretEditEncrypt_lost_entries :
    ((twoTextsEnv.encryptAll
          (["u1", "u1"].map (fun userId => ⟨userId, "plaintext"⟩))).result
          = .ok ["pgp-first", "pgp-second"]
        ∧ repliesOn "request-2"
            (secretEditEncrypt twoTextsEnv 1 "request-2" ["u1", "u1"] demoStore).trace
            = [[SUCCESS, .object [("u1", "pgp-second")]]]
        ∧ ([("u1", "pgp-second")] : JsObject).length ≠ ["u1", "u1"].length
        ∧ JsObject.get [("u1", "pgp-second")] "u1" ≠ ["pgp-first", "pgp-second"][0]?)
      ∧ ((okEnv.encryptAll
          (["__proto__"].map (fun userId => ⟨userId, "plaintext"⟩))).result
          = .ok ["pgp-__proto__"]
        ∧ repliesOn "request-2"
            (secretEditEncrypt okEnv 1 "request-2" ["__proto__"] demoStore).trace
            = [[SUCCESS, .object []]]
        ∧ ([] : JsObject).length ≠ ["__proto__"].length
        ∧ JsObject.get [] "__proto__" ≠ ["pgp-__proto__"][0]?) :=
  ⟨⟨rfl, by decide, by decide, by decide⟩, ⟨rfl, by decide, by decide, by decide⟩⟩

/-- C4: in the share handler with an empty shareWith list the trace is the
single envelope SUCCESS with an empty map on the request id: no collaborator
and no progress dialog call is made. -/
theorem shareEncrypt_empty_shareWith (env : Env) (tabId : TabId) (requestId : String)
    (s : Store) (h : TabStorage.get s tabId .shareWith = some []) :
    (shareEncrypt env tabId requestId s).trace = [.emit .self requestId [SUCCESS, .object []]]
      ∧ repliesOn requestId (shareEncrypt env tabId requestId s).trace
          = [[SUCCESS, .object []]]
      ∧ (shareEncrypt env tabId requestId s).trace.filter Effect.isCollaboratorCall = [] := by
  simp [shareEncrypt, h, repliesOn_cons, repliesOn_nil, Effect.replyOn,
    Effect.isCollaboratorCall]

theorem shareEncrypt_empty_shareWith_witness :
    TabStorage.get demoStore 2 .shareWith = some []
      ∧ (shareEncrypt okEnv 2 "request-7" demoStore).trace
          = [.emit .self "request-7" [SUCCESS, .object []]] :=
  ⟨by decide, (shareEncrypt_empty_shareWith okEnv 2 "request-7" demoStore (by decide)).1⟩

/-- C5: in the share handler with a non empty shareWith, when every stage
succeeds and the simulation reports no added user, the answer is SUCCESS with
an empty map, and before it the stage calls are exactly master password,
decrypt, key ring sync and simulation, once each and in that order; the trace
is not the one of the empty shareWith case. -/
theorem shareEncrypt_nothing_added (env : Env) (tabId : TabId) (requestId : String)
    (s : Store) (sharedPassword : SharedPassword) (aros : List Aro)
    (masterPassword secret : String)
    (haros : TabStorage.get s tabId .shareWith = some aros) (hne : aros ≠ [])
    (hshared : TabStorage.get s tabId .sharedPassword = some sharedPassword)
    (hmaster : env.masterPassword = .ok masterPassword)
    (hdecrypt : env.decrypt sharedPassword.armored masterPassword = .ok secret)
    (hsync : env.sync = .ok ())
    (hsimulate : env.simulateShare sharedPassword.resourceId (aros.map Aro.permission)
      = .ok ⟨[]⟩)
    (hencrypt : (env.encryptAll []).result = .ok []) :
    ∃ before : List Effect,
      (shareEncrypt env tabId requestId s).trace
          = before ++ [.emit .self requestId [SUCCESS, .object []], .progressClose]
        ∧ before.filter Effect.isStageCall
            = [.masterPasswordGet, .decrypt sharedPassword.armored masterPassword,
               .keyringSync,
               .simulateShare sharedPassword.resourceId (aros.map Aro.permission)]
        ∧ repliesOn requestId before = []
        ∧ repliesOn requestId (shareEncrypt env tabId requestId s).trace
            = [[SUCCESS, .object []]]
        ∧ (shareEncrypt env tabId requestId s).trace
            ≠ [.emit .self requestId [SUCCESS, .object []]] := by
  refine ⟨[.masterPasswordGet, .progressOpen "Encrypting ..." 100,
      .decrypt sharedPassword.armored masterPassword, .keyringSync,
      .simulateShare sharedPassword.resourceId (aros.map Aro.permission),
      .progressUpdateGoals 0, .encryptAll []]
      ++ runCallbacks 0 0 (env.encryptAll []).calls, ?_, ?_, ?_, ?_, ?_⟩
  · simp [shareEncrypt, haros, hne, hshared, hmaster, hdecrypt, hsync, hsimulate,
      shareEncryptAdded, encryptItems, hencrypt, assembleShare, assembleShareFrom]
  · simp [List.filter_append, filter_isStageCall_runCallbacks, Effect.isStageCall]
  · simp [repliesOn_append, repliesOn_cons, repliesOn_nil, Effect.replyOn,
      repliesOn_runCallbacks]
  · simp [shareEncrypt, haros, hne, hshared, hmaster, hdecrypt, hsync, hsimulate,
      shareEncryptAdded, encryptItems, hencrypt, assembleShare, assembleShareFrom,
      repliesOn_append, repliesOn_cons, repliesOn_nil, Effect.replyOn,
      repliesOn_runCallbacks]
  · simp [shareEncrypt, haros, hne, hshared, hmaster, hdecrypt, hsync, hsimulate,
      shareEncryptAdded, encryptItems, hencrypt, assembleShare, assembleShareFrom]

theorem shareEncrypt_nothing_added_witness :
    repliesOn "request-5" (shareEncrypt okEnv 1 "request-5" demoStore).trace
      = [[SUCCESS, .object []]] :=
  (shareEncrypt_nothing_added okEnv 1 "request-5" demoStore ⟨"armored", "resource-1", none⟩
    [.User "u1", .User "u2"] "passphrase" "plaintext" (by decide) (by decide) (by decide)
    rfl rfl rfl rfl rfl).elim (fun _ h => h.2.2.2.1)

/-- C6: in the secret edit handler, when the stored edited password has no
decrypted secret, the trace is the single envelope SUCCESS with an empty map
on the request id, whatever the recipients: the progress dialog, the key ring
sync and `encryptAll` are not called. -/
theorem secretEditEncrypt_not_decrypted (env : Env) (tabId : TabId) (requestId : String)
    (usersIds : List String) (s : Store) (editedPassword : EditedPassword)
    (hstored : TabStorage.get s tabId .editedPassword = some editedPassword)
    (hsecret : editedPassword.secret = none) :
    (secretEditEncrypt env tabId requestId usersIds s).trace
        = [.emit .self requestId [SUCCESS, .object []]]
      ∧ repliesOn requestId (secretEditEncrypt env tabId requestId usersIds s).trace
          = [[SUCCESS, .object []]]
      ∧ (secretEditEncrypt env tabId requestId usersIds s).trace.filter
          Effect.isCollaboratorCall = [] := by
  simp [secretEditEncrypt, hstored, hsecret, repliesOn_cons, repliesOn_nil, Effect.replyOn,
    Effect.isCollaboratorCall]

theorem secretEditEncrypt_not_decrypted_witness :
    (secretEditEncrypt okEnv 2 "request-3" ["u1", "u2"] demoStore).trace
      = [.emit .self "request-3" [SUCCESS, .object []]] :=
  (secretEditEncrypt_not_decrypted okEnv 2 "request-3" ["u1", "u2"] demoStore ⟨none⟩
    (by decide) rfl).1

/-- C8: in the secret edit handler with a decrypted secret, when the key ring
sync rejects, or when it succeeds and `encryptAll` rejects, no envelope at all
is emitted on the request id. -/
theorem secretEditEncrypt_rejection_unanswered (env : Env) (tabId : TabId)
    (requestId : String) (usersIds : List String) (s : Store)
    (editedPassword : EditedPassword) (secret : String) (e : JsError)
    (hstored : TabStorage.get s tabId .editedPassword = some editedPassword)
    (hsecret : editedPassword.secret = some secret)
    (hreject : env.sync = .error e
      ∨ (env.sync = .ok ()
          ∧ (env.encryptAll (usersIds.map (fun userId => ⟨userId, secret⟩))).result
              = .error e)) :
    repliesOn requestId (secretEditEncrypt env tabId requestId usersIds s).trace = [] := by
  rcases hreject with h | ⟨h1, h2⟩
  · simp [secretEditEncrypt, hstored, hsecret, h, repliesOn_cons, repliesOn_nil,
      Effect.replyOn]
  · simp [secretEditEncrypt, hstored, hsecret, h1, h2, repliesOn_append, repliesOn_cons,
      repliesOn_nil, Effect.replyOn, repliesOn_runCallbacks]

theorem secretEditEncrypt_rejection_unanswered_witness :
    syncFailureEnv.sync = .error ⟨"Keyring sync failed", none⟩
      ∧ repliesOn "request-8"
          (secretEditEncrypt syncFailureEnv 1 "request-8" ["u1"] demoStore).trace = [] :=
  ⟨rfl,
   secretEditEncrypt_rejection_unanswered syncFailureEnv 1 "request-8" ["u1"] demoStore
     ⟨some "plaintext"⟩ "plaintext" ⟨"Keyring sync failed", none⟩ (by decide) rfl
     (Or.inl rfl)⟩

theorem encryptAllCalls_nil : encryptAllCalls [] = [] := rfl

theorem encryptAllCalls_cons (eff : Effect) (tr : List Effect) :
    encryptAllCalls (eff :: tr)
      = match eff.encryptAllItems with
        | none => encryptAllCalls tr
        | some items => items :: encryptAllCalls tr := by
  cases h : eff.encryptAllItems <;> simp [encryptAllCalls, List.filterMap_cons, h]

/-- C3 (amended): in the share handler, when all stages succeed, the simulation
reports the added users with the ids `ids`, pairwise distinct and none of them
`__proto__`, and `encryptAll` answers with one text per item, `encryptAll` is
called once, with one item per added user (the user id and the decrypted
secret), whatever the size of shareWith, and the only envelope on the request
id is SUCCESS with a map that has one entry per added user, whose keys are
exactly the ids, and that maps the j-th id to the j-th text. -/
theorem shareEncrypt_added_users (env : Env) (tabId : TabId) (requestId : String)
    (s : Store) (sharedPassword : SharedPassword) (aros : List Aro)
    (masterPassword secret : String) (ids data : List String)
    (haros : TabStorage.get s tabId .shareWith = some aros) (hne : aros ≠ [])
    (hshared : TabStorage.get s tabId .sharedPassword = some sharedPassword)
    (hmaster : env.masterPassword = .ok masterPassword)
    (hdecrypt : env.decrypt sharedPassword.armored masterPassword = .ok secret)
    (hsync : env.sync = .ok ())
    (hsimulate : env.simulateShare sharedPassword.resourceId (aros.map Aro.permission)
      = .ok ⟨ids.map Aro.User⟩)
    (hdata : (env.encryptAll (ids.map (fun id => ⟨id, secret⟩))).result = .ok data)
    (hlen : data.length = ids.length)
    (hnodup : ids.Nodup)
    (hproto : "__proto__" ∉ ids) :
    encryptAllCalls (shareEncrypt env tabId requestId s).trace
        = [ids.map (fun id => ⟨id, secret⟩)]
      ∧ ∃ armoreds : JsObject,
          repliesOn requestId (shareEncrypt env tabId requestId s).trace
            = [[SUCCESS, .object armoreds]]
          ∧ armoreds.length = ids.length
          ∧ (∀ key : String, key ∈ armoreds.map Prod.fst ↔ key ∈ ids)
          ∧ ∀ (j : Nat) (hj : j < ids.length), armoreds.get ids[j] = data[j]? := by
  have hassemble : assembleShare (ids.map Aro.User) data = .ok (assembleEdit ids data) := by
    rw [assembleShare, assembleShareFrom_users ids data 0 [] (by omega)]
    rfl
  refine ⟨?_, assembleEdit ids data, ?_, ?_, ?_, ?_⟩
  · simp [shareEncrypt, haros, hne, hshared, hmaster, hdecrypt, hsync, hsimulate,
      shareEncryptAdded, encryptItems_users, hdata, hassemble, encryptAllCalls_append,
      encryptAllCalls_cons, encryptAllCalls_nil, Effect.encryptAllItems,
      encryptAllCalls_runCallbacks]
  · simp [shareEncrypt, haros, hne, hshared, hmaster, hdecrypt, hsync, hsimulate,
      shareEncryptAdded, encryptItems_users, hdata, hassemble, repliesOn_append,
      repliesOn_cons, repliesOn_nil, Effect.replyOn, repliesOn_runCallbacks]
  · rw [(assembleEdit_perm ids data hnodup hproto hlen).length_eq, List.length_zip]
    omega
  · intro key
    exact (assembleEdit_keys ids data hnodup hproto hlen).mem_iff
  · intro j hj
    exact assembleEdit_get ids data hnodup hproto hlen j hj

theorem shareEncrypt_added_users_witness :
    repliesOn "request-3" (shareEncrypt secondUserAddedEnv 1 "request-3" demoStore).trace
        = [[SUCCESS, .object [("u2", "pgp-u2")]]]
      ∧ encryptAllCalls (shareEncrypt secondUserAddedEnv 1 "request-3" demoStore).trace
        = [[⟨"u2", "plaintext"⟩]] :=
  ⟨by decide,
   (shareEncrypt_added_users secondUserAddedEnv 1 "request-3" demoStore
      ⟨"armored", "resource-1", none⟩ [.User "u1", .User "u2"] "passphrase" "plaintext"
      ["u2"] ["pgp-u2"] (by decide) (by decide) (by decide) rfl rfl rfl rfl rfl rfl
      (by decide) (by decide)).1⟩

/-- C3 (counterexample): when the simulation reports the user u2 twice and
`encryptAll` answers with two different texts, the key u2, which is the id of
the first added user, is mapped to the second text, not to the first; when it
reports the single user `__proto__`, the map of the answer has no key. -/
theorem shareEncrypt_lost_entries :
    (sameUserTwiceEnv.simulateShare "resource-1"
          ([Aro.User "u1", Aro.User "u2"].map Aro.permission)
          = .ok ⟨[.User "u2", .User "u2"]⟩
        ∧ (sameUserTwiceEnv.encryptAll [⟨"u2", "plaintext"⟩, ⟨"u2", "plaintext"⟩]).result
          = .ok ["pgp-first", "pgp-second"]
        ∧ repliesOn "request-3" (shareEncrypt sameUserTwiceEnv 1 "request-3" demoStore).trace
          = [[SUCCESS, .object [("u2", "pgp-second")]]]
        ∧ JsObject.get [("u2", "pgp-second")] "u2" ≠ ["pgp-first", "pgp-second"][0]?)
      ∧ (protoUserAddedEnv.simulateShare "resource-1"
          ([Aro.User "u1", Aro.User "u2"].map Aro.permission)
          = .ok ⟨[.User "__proto__"]⟩
        ∧ (protoUserAddedEnv.encryptAll [⟨"__proto__", "plaintext"⟩]).result
          = .ok ["pgp-__proto__"]
        ∧ repliesOn "request-3"
            (shareEncrypt protoUserAddedEnv 1 "request-3" demoStore).trace
          = [[SUCCESS, .object []]]
        ∧ "__proto__" ∉ ([] : JsObject).map Prod.fst) :=
  ⟨⟨rfl, rfl, by decide, by decide⟩, ⟨rfl, rfl, by decide, by decide⟩⟩

/-- C7 (amended): in the remove permission handler, when at most one entry of
shareWith has the removed id, the list stored back is the input list without
that entry, the others in their order: the unchanged list when no entry has
the id, a list one shorter when one has it, tagged User or Group. -/
theorem shareRemovePermission_at_most_one (tabId : TabId) (removedAroId : String)
    (s : Store) (aros : List Aro)
    (haros : TabStorage.get s tabId .shareWith = some aros)
    (honce : (aros.filter (fun aro => aro.aroId = removedAroId)).length ≤ 1) :
    TabStorage.get (shareRemovePermission tabId removedAroId s).store tabId .shareWith
        = some (aros.filter (fun aro => aro.aroId ≠ removedAroId))
      ∧ ((∀ aro ∈ aros, aro.aroId ≠ removedAroId) →
          TabStorage.get (shareRemovePermission tabId removedAroId s).store tabId .shareWith
            = some aros)
      ∧ ((∃ aro ∈ aros, aro.aroId = removedAroId) →
          (aros.filter (fun aro => aro.aroId ≠ removedAroId)).length + 1 = aros.length) := by
  have hstored :
      TabStorage.get (shareRemovePermission tabId removedAroId s).store tabId .shareWith
        = some (aros.filter (fun aro => aro.aroId ≠ removedAroId)) := by
    have hread : (s tabId).shareWith = some aros := haros
    have hlist := removePermissionList_unique removedAroId aros honce
    simp [shareRemovePermission, hread, TabStorage.get, TabStorage.set, TabState.get,
      TabState.set, hlist]
  refine ⟨hstored, ?_, ?_⟩
  · intro hnone
    rw [hstored, List.filter_eq_self.mpr (by simpa using hnone)]
  · rintro ⟨aro, hmem, hid⟩
    have hpos : 0 < (aros.filter (fun aro => aro.aroId = removedAroId)).length :=
      List.length_pos_of_mem (List.mem_filter.mpr ⟨hmem, by simpa using hid⟩)
    have hsum := List.length_eq_length_filter_add (l := aros)
      (fun aro => decide (aro.aroId = removedAroId))
    simp only [Bool.not_eq_true', decide_eq_false_iff_not] at hsum
    have hsame : (aros.filter (fun aro => decide (aro.aroId ≠ removedAroId))).length
        = (aros.filter (fun aro => !decide (aro.aroId = removedAroId))).length := by
      congr 1; apply List.filter_congr; intro x _; simp
    omega

theorem shareRemovePermission_at_most_one_witness :
    TabStorage.get (shareRemovePermission 1 "u1" demoStore).store 1 .shareWith
      = some ([Aro.User "u1", Aro.User "u2"].filter (fun aro => aro.aroId ≠ "u1")) :=
  (shareRemovePermission_at_most_one 1 "u1" demoStore [.User "u1", .User "u2"] (by decide)
    (by decide)).1

/-- C7 (counterexample): for the list User a, Group b, User a and the id a both
entries with the id a are removed: the stored list has one entry, not two. -/
theorem shareRemovePermission_repeated_id :
    TabStorage.get repeatedAroStore 1 .shareWith
        = some [.User "a", .Group "b", .User "a"]
      ∧ TabStorage.get (shareRemovePermission 1 "a" repeatedAroStore).store 1 .shareWith
        = some [.Group "b"]
      ∧ [Aro.Group "b"].length ≠ [Aro.User "a", Aro.Group "b", Aro.User "a"].length - 1 := by
  decide

/-! ## Progress of the per recipient loop -/

theorem progressValues_append (a b : List Effect) :
    progressValues (a ++ b) = progressValues a ++ progressValues b := by
  simp [progressValues, List.filterMap_append]

theorem progressValues_nil : progressValues [] = [] := rfl

theorem progressValues_cons (eff : Effect) (tr : List Effect) :
    progressValues (eff :: tr)
      = match eff.progressValue with
        | none => progressValues tr
        | some v => v :: progressValues tr := by
  cases h : eff.progressValue <;> simp [progressValues, List.filterMap_cons, h]

theorem progressWithinGoals_sequential (goals g : Nat) (rest : List Effect) :
    ∀ (m j p : Nat), p + m ≤ g →
      progressWithinGoals (some g) p
          (runCallbacks goals p (sequentialCallsFrom j m) ++ rest)
        = progressWithinGoals (some g) (p + m) rest := by
  intro m
  induction m with
  | zero => intro j p _; simp [sequentialCallsFrom, runCallbacks]
  | succ m ih =>
    intro j p h
    have h1 : p ≤ g := by omega
    have h2 : p + 1 ≤ g := by omega
    simp only [sequentialCallsFrom, runCallbacks, List.cons_append, progressWithinGoals,
      Nat.le_refl, Nat.le_succ, h1, h2, decide_True, Bool.and_self, Bool.true_and,
      List.append_eq]
    rw [ih (j + 1) (p + 1) (by omega)]
    congr 1
    omega

theorem progressValues_sequential_last (goals : Nat) :
    ∀ (m j p : Nat),
      (progressValues (runCallbacks goals p (sequentialCallsFrom j (m + 1)))).getLast?
        = some (p + (m + 1)) := by
  intro m
  induction m with
  | zero =>
    intro j p
    simp [sequentialCallsFrom, runCallbacks, progressValues_cons, progressValues_nil,
      Effect.progressValue]
  | succ m ih =>
    intro j p
    have := ih (j + 1) (p + 1)
    rw [sequentialCallsFrom, runCallbacks, runCallbacks, progressValues_cons,
      progressValues_cons]
    simp only [Effect.progressValue]
    rw [List.getLast?_cons, List.getLast?_cons, this]
    simp only [Option.getD_some]
    congr 1
    omega

theorem progressValues_chain : ∀ (tr : List Effect) (goals : Option Nat) (p : Nat),
    progressWithinGoals goals p tr = true → List.Chain (· ≤ ·) p (progressValues tr) := by
  intro tr
  induction tr with
  | nil => intro _ _ _; exact List.Chain.nil
  | cons eff rest ih =>
    intro goals p h
    cases eff with
    | progressUpdate completed label =>
      simp only [progressWithinGoals, Bool.and_eq_true, decide_eq_true_eq] at h
      rw [progressValues_cons]
      exact List.Chain.cons h.1.1 (ih _ _ h.2)
    | progressOpen label g =>
      simp only [progressWithinGoals] at h
      rw [progressValues_cons]; exact ih _ _ h
    | progressUpdateGoals g =>
      simp only [progressWithinGoals] at h
      rw [progressValues_cons]; exact ih _ _ h
    | _ =>
      simp only [progressWithinGoals] at h
      rw [progressValues_cons]; exact ih _ _ h

theorem progressValues_sorted (tr : List Effect)
    (h : progressWithinGoals none 0 tr = true) :
    List.Sorted (· ≤ ·) (progressValues tr) := by
  have hchain : List.Chain' (· ≤ ·) (0 :: progressValues tr) := progressValues_chain tr none 0 h
  exact List.chain'_iff_pairwise.mp hchain.tail

theorem progressValues_runCallbacks_last (goals n : Nat) (hn : 0 < n) :
    (progressValues (runCallbacks goals 0 (sequentialCalls n))).getLast? = some n := by
  obtain ⟨m, rfl⟩ : ∃ m, n = m + 1 := ⟨n - 1, by omega⟩
  rw [sequentialCalls, progressValues_sequential_last goals m 1 0]
  simp

theorem secretEditEncrypt_progress (env : Env) (tabId : TabId) (requestId : String)
    (usersIds : List String) (s : Store) (editedPassword : EditedPassword) (secret : String)
    (hstored : TabStorage.get s tabId .editedPassword = some editedPassword)
    (hsecret : editedPassword.secret = some secret)
    (hsync : env.sync = .ok ())
    (hcalls : (env.encryptAll (usersIds.map (fun userId => ⟨userId, secret⟩))).calls
      = sequentialCalls usersIds.length) :
    progressWithinGoals none 0 (secretEditEncrypt env tabId requestId usersIds s).trace = true
      ∧ (0 < usersIds.length →
          (progressValues (secretEditEncrypt env tabId requestId usersIds s).trace).getLast?
            = some usersIds.length) := by
  have hwalk : ∀ rest : List Effect, progressWithinGoals (some usersIds.length) 0
      (runCallbacks usersIds.length 0 (sequentialCalls usersIds.length) ++ rest)
        = progressWithinGoals (some usersIds.length) (0 + usersIds.length) rest :=
    fun rest => progressWithinGoals_sequential _ _ rest usersIds.length 1 0 (by omega)
  cases hres : (env.encryptAll (usersIds.map (fun userId => ⟨userId, secret⟩))).result with
  | error e =>
    refine ⟨?_, fun hn => ?_⟩
    · simp only [secretEditEncrypt, hstored, hsecret, hsync, hcalls, hres, List.cons_append,
        List.nil_append, List.append_assoc, progressWithinGoals, hwalk]
    · simp only [secretEditEncrypt, hstored, hsecret, hsync, hcalls, hres, List.cons_append,
        List.nil_append, progressValues_cons, progressValues_append, Effect.progressValue,
        progressValues_nil, List.append_nil]
      exact progressValues_runCallbacks_last _ _ hn
  | ok data =>
    refine ⟨?_, fun hn => ?_⟩
    · simp only [secretEditEncrypt, hstored, hsecret, hsync, hcalls, hres, List.cons_append,
        List.nil_append, List.append_assoc, progressWithinGoals, hwalk]
    · simp only [secretEditEncrypt, hstored, hsecret, hsync, hcalls, hres, List.cons_append,
        List.nil_append, progressValues_cons, progressValues_append, Effect.progressValue,
        progressValues_nil, List.append_nil]
      exact progressValues_runCallbacks_last _ _ hn

theorem shareEncrypt_progress (env : Env) (tabId : TabId) (requestId : String)
    (s : Store) (sharedPassword : SharedPassword) (aros : List Aro)
    (masterPassword secret : String) (ids : List String)
    (haros : TabStorage.get s tabId .shareWith = some aros) (hne : aros ≠ [])
    (hshared : TabStorage.get s tabId .sharedPassword = some sharedPassword)
    (hmaster : env.masterPassword = .ok masterPassword)
    (hdecrypt : env.decrypt sharedPassword.armored masterPassword = .ok secret)
    (hsync : env.sync = .ok ())
    (hsimulate : env.simulateShare sharedPassword.resourceId (aros.map Aro.permission)
      = .ok ⟨ids.map Aro.User⟩)
    (hcalls : (env.encryptAll (ids.map (fun id => ⟨id, secret⟩))).calls
      = sequentialCalls ids.length) :
    progressWithinGoals none 0 (shareEncrypt env tabId requestId s).trace = true
      ∧ (0 < ids.length →
          (progressValues (shareEncrypt env tabId requestId s).trace).getLast?
            = some ids.length) := by
  have hwalk : ∀ rest : List Effect, progressWithinGoals (some ids.length) 0
      (runCallbacks ids.length 0 (sequentialCalls ids.length) ++ rest)
        = progressWithinGoals (some ids.length) (0 + ids.length) rest :=
    fun rest => progressWithinGoals_sequential _ _ rest ids.length 1 0 (by omega)
  have hlen0 : ¬ aros.length = 0 := fun h => hne (List.length_eq_zero.mp h)
  have htrace : ∃ rest : List Effect, progressValues rest = []
      ∧ (∀ g p, progressWithinGoals g p rest = true)
      ∧ (shareEncrypt env tabId requestId s).trace
        = [.masterPasswordGet, .progressOpen "Encrypting ..." 100,
           .decrypt sharedPassword.armored masterPassword, .keyringSync,
           .simulateShare sharedPassword.resourceId (aros.map Aro.permission),
           .progressUpdateGoals ids.length,
           .encryptAll (ids.map (fun id => ⟨id, secret⟩))]
          ++ (runCallbacks ids.length 0 (sequentialCalls ids.length) ++ rest) := by
    cases hres : (env.encryptAll (ids.map (fun id => ⟨id, secret⟩))).result with
    | error e =>
      refine ⟨[.emit .self requestId [ERROR, .error e]], rfl, fun _ _ => rfl, ?_⟩
      simp [shareEncrypt, haros, hlen0, hshared, hmaster, hdecrypt, hsync, hsimulate,
        shareEncryptAdded, encryptItems_users, hcalls, hres, shareEncryptRejected]
    | ok data =>
      cases hasm : assembleShare (ids.map Aro.User) data with
      | error e =>
        refine ⟨[.emit .self requestId [ERROR, .error e]], rfl, fun _ _ => rfl, ?_⟩
        simp [shareEncrypt, haros, hlen0, hshared, hmaster, hdecrypt, hsync, hsimulate,
          shareEncryptAdded, encryptItems_users, hcalls, hres, hasm, shareEncryptRejected]
      | ok armoreds =>
        refine ⟨[.emit .self requestId [SUCCESS, .object armoreds], .progressClose], rfl,
          fun _ _ => rfl, ?_⟩
        simp [shareEncrypt, haros, hlen0, hshared, hmaster, hdecrypt, hsync, hsimulate,
          shareEncryptAdded, encryptItems_users, hcalls, hres, hasm]
  obtain ⟨rest, hvals, hrest, htr⟩ := htrace
  rw [htr]
  refine ⟨?_, fun hn => ?_⟩
  · simp only [List.cons_append, List.nil_append, progressWithinGoals, List.append_eq,
      hwalk, hrest]
  · simp only [List.cons_append, List.nil_append, progressValues_cons, progressValues_append,
      Effect.progressValue, hvals, List.append_nil]
    exact progressValues_runCallbacks_last _ _ hn

/-- C10: in both handlers, when `encryptAll` makes its calls in sequence (for
the item at position j the start callback, then the completion callback with
j), the values passed to the progress update are sorted, each one is within
the total set last (by open in the secret edit handler, by updateGoals in the
share handler), and the last value is the number of items when there is one. -/
theorem encryptAll_progress_invariant (env : Env) (tabId : TabId) (requestId : String)
    (s : Store) (secret : String) :
    (∀ (usersIds : List String) (editedPassword : EditedPassword),
        TabStorage.get s tabId .editedPassword = some editedPassword →
        editedPassword.secret = some secret →
        env.sync = .ok () →
        (env.encryptAll (usersIds.map (fun userId => ⟨userId, secret⟩))).calls
          = sequentialCalls usersIds.length →
        List.Sorted (· ≤ ·)
            (progressValues (secretEditEncrypt env tabId requestId usersIds s).trace)
          ∧ progressWithinGoals none 0
              (secretEditEncrypt env tabId requestId usersIds s).trace = true
          ∧ (0 < usersIds.length →
              (progressValues
                  (secretEditEncrypt env tabId requestId usersIds s).trace).getLast?
                = some usersIds.length))
      ∧ (∀ (sharedPassword : SharedPassword) (aros : List Aro) (masterPassword : String)
          (ids : List String),
        TabStorage.get s tabId .shareWith = some aros → aros ≠ [] →
        TabStorage.get s tabId .sharedPassword = some sharedPassword →
        env.masterPassword = .ok masterPassword →
        env.decrypt sharedPassword.armored masterPassword = .ok secret →
        env.sync = .ok () →
        env.simulateShare sharedPassword.resourceId (aros.map Aro.permission)
          = .ok ⟨ids.map Aro.User⟩ →
        (env.encryptAll (ids.map (fun id => ⟨id, secret⟩))).calls
          = sequentialCalls ids.length →
        List.Sorted (· ≤ ·) (progressValues (shareEncrypt env tabId requestId s).trace)
          ∧ progressWithinGoals none 0 (shareEncrypt env tabId requestId s).trace = true
          ∧ (0 < ids.length →
              (progressValues (shareEncrypt env tabId requestId s).trace).getLast?
                = some ids.length)) := by
  constructor
  · intro usersIds editedPassword h1 h2 h3 h4
    have h := secretEditEncrypt_progress env tabId requestId usersIds s editedPassword secret
      h1 h2 h3 h4
    exact ⟨progressValues_sorted _ h.1, h.1, h.2⟩
  · intro sharedPassword aros masterPassword ids h1 h2 h3 h4 h5 h6 h7 h8
    have h := shareEncrypt_progress env tabId requestId s sharedPassword aros masterPassword
      secret ids h1 h2 h3 h4 h5 h6 h7 h8
    exact ⟨progressValues_sorted _ h.1, h.1, h.2⟩

theorem encryptAll_progress_invariant_witness :
    (progressValues
        (secretEditEncrypt okEnv 1 "request-10" ["u1", "u2"] demoStore).trace).getLast?
        = some 2
      ∧ (progressValues
          (shareEncrypt secondUserAddedEnv 1 "request-10" demoStore).trace).getLast?
        = some 1 :=
  ⟨((encryptAll_progress_invariant okEnv 1 "request-10" demoStore "plaintext").1
      ["u1", "u2"] ⟨some "plaintext"⟩ (by decide) rfl rfl rfl).2.2 (by decide),
   ((encryptAll_progress_invariant secondUserAddedEnv 1 "request-10" demoStore
      "plaintext").2 ⟨"armored", "resource-1", none⟩ [.User "u1", .User "u2"] "passphrase"
      ["u2"] (by decide) (by decide) (by decide) rfl rfl rfl rfl rfl).2.2 (by decide)⟩

/-! ## Isolation of the tabs -/

theorem appEvents_store_other (env : Env) (tabId : TabId) (ev : AppEvent) (s : Store)
    (other : TabId) (h : other ≠ tabId) :
    (appEvents.listen env tabId ev s).store other = s other := by
  cases ev <;>
    simp only [appEvents.listen, windowResized, secretEditFocus, secretEditValidate,
      secretEditEncrypt, sharePasswordInit, shareEncrypt, shareEncryptAdded,
      shareEncryptRejected, shareRemovePermission, appDecryptCopy, decryptCopyRejected,
      exportPasswordsInit] <;>
    (repeat' split) <;>
    simp [TabStorage.set, h]

theorem appEvents_trace_congr (env : Env) (tabId : TabId) (ev : AppEvent) (s1 s2 : Store)
    (h : s1 tabId = s2 tabId) :
    (appEvents.listen env tabId ev s1).trace = (appEvents.listen env tabId ev s2).trace := by
  cases ev <;>
    simp only [appEvents.listen, windowResized, secretEditFocus, secretEditValidate,
      secretEditEncrypt, sharePasswordInit, shareEncrypt, shareEncryptAdded,
      shareEncryptRejected, shareRemovePermission, appDecryptCopy, decryptCopyRejected,
      exportPasswordsInit, TabStorage.get, h] <;>
    (repeat' split) <;>
    simp_all

theorem editPasswordEvents_store_other (tabId : TabId) (ev : EditPasswordEvent) (s : Store)
    (other : TabId) (h : other ≠ tabId) :
    (editPasswordEvents.listen tabId ev s).store other = s other := by
  cases ev with
  | setEditedPassword requestId editedPassword =>
    simp [editPasswordEvents.listen, setEditedPassword, TabStorage.set, h]
  | getEditedPassword requestId =>
    simp only [editPasswordEvents.listen, getEditedPassword]
    split <;> rfl

theorem editPasswordEvents_trace_congr (tabId : TabId) (ev : EditPasswordEvent)
    (s1 s2 : Store) (h : s1 tabId = s2 tabId) :
    (editPasswordEvents.listen tabId ev s1).trace
      = (editPasswordEvents.listen tabId ev s2).trace := by
  cases ev with
  | setEditedPassword requestId editedPassword => rfl
  | getEditedPassword requestId =>
    simp only [editPasswordEvents.listen, getEditedPassword, TabStorage.get, h]
    cases (s2 tabId).get Key.editedPassword <;> rfl

/-- C9: the handlers registered by `listen` of appEvents.js and of
editPasswordEvents.js for a worker of tab `tabId` leave the store of every
other tab as it was, and two runs from stores with the same content for
`tabId` emit the same envelopes: their traces are equal. -/
theorem handlers_tab_isolation (env : Env) (tabId : TabId) :
    (∀ (ev : AppEvent) (s : Store) (other : TabId), other ≠ tabId →
        (appEvents.listen env tabId ev s).store other = s other)
      ∧ (∀ (ev : AppEvent) (s1 s2 : Store), s1 tabId = s2 tabId →
        (appEvents.listen env tabId ev s1).trace = (appEvents.listen env tabId ev s2).trace)
      ∧ (∀ (ev : EditPasswordEvent) (s : Store) (other : TabId), other ≠ tabId →
        (editPasswordEvents.listen tabId ev s).store other = s other)
      ∧ (∀ (ev : EditPasswordEvent) (s1 s2 : Store), s1 tabId = s2 tabId →
        (editPasswordEvents.listen tabId ev s1).trace
          = (editPasswordEvents.listen tabId ev s2).trace) :=
  ⟨fun ev s other h => appEvents_store_other env tabId ev s other h,
   fun ev s1 s2 h => appEvents_trace_congr env tabId ev s1 s2 h,
   fun ev s other h => editPasswordEvents_store_other tabId ev s other h,
   fun ev s1 s2 h => editPasswordEvents_trace_congr tabId ev s1 s2 h⟩

theorem handlers_tab_isolation_witness :
    (appEvents.listen okEnv 1 (.shareEncrypt "request-9") demoStore).store 2 = demoStore 2
      ∧ (appEvents.listen okEnv 1 (.shareRemovePermission "u1") demoStore).store 2
          = demoStore 2
      ∧ (appEvents.listen okEnv 1 (.secretEditEncrypt "request-9" ["u1"]) demoStore).trace
          = (appEvents.listen okEnv 1 (.secretEditEncrypt "request-9" ["u1"])
              otherTabChangedStore).trace
      ∧ (editPasswordEvents.listen 1 (.setEditedPassword "request-9" ⟨none⟩) demoStore).store 2
          = demoStore 2 :=
  ⟨(handlers_tab_isolation okEnv 1).1 (.shareEncrypt "request-9") demoStore 2 (by decide),
   (handlers_tab_isolation okEnv 1).1 (.shareRemovePermission "u1") demoStore 2 (by decide),
   (handlers_tab_isolation okEnv 1).2.1 (.secretEditEncrypt "request-9" ["u1"]) demoStore
     otherTabChangedStore (by decide),
   (handlers_tab_isolation okEnv 1).2.2.1 (.setEditedPassword "request-9" ⟨none⟩) demoStore 2
     (by decide)⟩

/-! ## Cleanup of the progress dialog -/

theorem progressClose_not_mem_runCallbacks (goals : Nat) :
    ∀ (calls : List Callback) (progress : Nat),
      Effect.progressClose ∉ runCallbacks goals progress calls := by
  intro calls
  induction calls with
  | nil => intro _; simp [runCallbacks]
  | cons c rest ih =>
    intro progress
    cases c with
    | start => simpa [runCallbacks] using ih (progress + 1)
    | complete position => simpa [runCallbacks] using ih progress

/-- C11: in the share handler, when a stage rejects with `e` the only envelope
on the request id is ERROR and the progress dialog is never closed: the
dialog was opened, and so is left open, exactly when the rejecting stage is
not the master password prompt (decrypt, key ring sync, diff resolution), and
also when `encryptAll` rejects. -/
theorem shareEncrypt_rejection_leaves_progress_open (env : Env) (tabId : TabId)
    (requestId : String) (s : Store) (sharedPassword : SharedPassword) (aros : List Aro)
    (e : JsError)
    (haros : TabStorage.get s tabId .shareWith = some aros) (hne : aros ≠ [])
    (hshared : TabStorage.get s tabId .sharedPassword = some sharedPassword) :
    (∀ stage : Stage, rejectsAt env sharedPassword aros e stage →
        repliesOn requestId (shareEncrypt env tabId requestId s).trace = [[ERROR, .error e]]
          ∧ Effect.progressClose ∉ (shareEncrypt env tabId requestId s).trace
          ∧ (Effect.progressOpen "Encrypting ..." 100
                ∈ (shareEncrypt env tabId requestId s).trace
              ↔ stage ≠ .authenticate))
      ∧ (encryptRejects env sharedPassword aros e →
        repliesOn requestId (shareEncrypt env tabId requestId s).trace = [[ERROR, .error e]]
          ∧ Effect.progressClose ∉ (shareEncrypt env tabId requestId s).trace
          ∧ Effect.progressOpen "Encrypting ..." 100
              ∈ (shareEncrypt env tabId requestId s).trace) := by
  constructor
  · intro stage hrej
    cases stage with
    | authenticate =>
      simp only [rejectsAt] at hrej
      simp [shareEncrypt, haros, hne, hshared, hrej, shareEncryptRejected, repliesOn_cons,
        repliesOn_nil, Effect.replyOn]
    | decrypt =>
      obtain ⟨mp, h1, h2⟩ := hrej
      simp [shareEncrypt, haros, hne, hshared, h1, h2, shareEncryptRejected, repliesOn_cons,
        repliesOn_nil, Effect.replyOn]
    | syncKeyring =>
      obtain ⟨mp, secret, h1, h2, h3⟩ := hrej
      simp [shareEncrypt, haros, hne, hshared, h1, h2, h3, shareEncryptRejected,
        repliesOn_cons, repliesOn_nil, Effect.replyOn]
    | resolveDiff =>
      obtain ⟨mp, secret, h1, h2, h3, h4⟩ := hrej
      simp [shareEncrypt, haros, hne, hshared, h1, h2, h3, h4, shareEncryptRejected,
        repliesOn_cons, repliesOn_nil, Effect.replyOn]
  · rintro ⟨mp, secret, ids, h1, h2, h3, h4, h5⟩
    simp [shareEncrypt, haros, hne, hshared, h1, h2, h3, h4, h5, shareEncryptAdded,
      encryptItems_users, shareEncryptRejected, repliesOn_append, repliesOn_cons,
      repliesOn_nil, Effect.replyOn, repliesOn_runCallbacks,
      progressClose_not_mem_runCallbacks]

theorem shareEncrypt_rejection_leaves_progress_open_witness :
    rejectsAt decryptFailureEnv ⟨"armored", "resource-1", none⟩ [.User "u1", .User "u2"]
        ⟨"Wrong passphrase", none⟩ .decrypt
      ∧ Effect.progressClose ∉ (shareEncrypt decryptFailureEnv 1 "request-11" demoStore).trace
      ∧ (shareEncrypt decryptFailureEnv 1 "request-11" demoStore).trace
          = [.masterPasswordGet, .progressOpen "Encrypting ..." 100,
             .decrypt "armored" "passphrase",
             .emit .self "request-11" [ERROR, .error ⟨"Wrong passphrase", none⟩]] :=
  ⟨⟨"passphrase", rfl, rfl⟩,
   (((shareEncrypt_rejection_leaves_progress_open decryptFailureEnv 1 "request-11" demoStore
      ⟨"armored", "resource-1", none⟩ [.User "u1", .User "u2"] ⟨"Wrong passphrase", none⟩
      (by decide) (by decide) (by decide)).1 .decrypt ⟨"passphrase", rfl, rfl⟩).2.1),
   by decide⟩

/-! ## Permissions given to the simulation -/

theorem pushPermissions_eq_map : ∀ (aros : List Aro) (permissions : List Permission),
    pushPermissions permissions aros = permissions ++ aros.map Aro.permission := by
  intro aros
  induction aros with
  | nil => intro permissions; simp [pushPermissions]
  | cons aro rest ih =>
    intro permissions
    cases aro <;> simp [pushPermissions, ih, Aro.permission]

theorem simulateShareCalls_nil : simulateShareCalls [] = [] := rfl

theorem simulateShareCalls_append (a b : List Effect) :
    simulateShareCalls (a ++ b) = simulateShareCalls a ++ simulateShareCalls b := by
  simp [simulateShareCalls, List.filterMap_append]

theorem simulateShareCalls_cons (eff : Effect) (tr : List Effect) :
    simulateShareCalls (eff :: tr)
      = match eff.simulateShareArgs with
        | none => simulateShareCalls tr
        | some call => call :: simulateShareCalls tr := by
  cases h : eff.simulateShareArgs <;> simp [simulateShareCalls, List.filterMap_cons, h]

theorem simulateShareCalls_runCallbacks (goals : Nat) :
    ∀ (calls : List Callback) (progress : Nat),
      simulateShareCalls (runCallbacks goals progress calls) = [] := by
  intro calls
  induction calls with
  | nil => intro _; rfl
  | cons c rest ih =>
    intro progress
    cases c with
    | start =>
      simpa [runCallbacks, simulateShareCalls_cons, Effect.simulateShareArgs]
        using ih (progress + 1)
    | complete position =>
      simpa [runCallbacks, simulateShareCalls_cons, Effect.simulateShareArgs]
        using ih progress

theorem simulateShareCalls_shareEncryptAdded (env : Env) (requestId secret : String)
    (addedUsers : List Aro) (s : Store) (tr : List Effect) :
    simulateShareCalls (shareEncryptAdded env requestId secret addedUsers s tr).trace
      = simulateShareCalls tr := by
  simp only [shareEncryptAdded, shareEncryptRejected]
  repeat' split
  all_goals
    simp [simulateShareCalls_append, simulateShareCalls_cons, simulateShareCalls_nil,
      Effect.simulateShareArgs, simulateShareCalls_runCallbacks]

theorem simulateShareCalls_shareEncrypt (env : Env) (tabId : TabId) (requestId : String)
    (s : Store) (sharedPassword : SharedPassword) (aros : List Aro)
    (haros : TabStorage.get s tabId .shareWith = some aros)
    (hshared : TabStorage.get s tabId .sharedPassword = some sharedPassword) :
    simulateShareCalls (shareEncrypt env tabId requestId s).trace = []
      ∨ simulateShareCalls (shareEncrypt env tabId requestId s).trace
          = [(sharedPassword.resourceId, aros.map Aro.permission)] := by
  simp only [shareEncrypt, haros, hshared, shareEncryptRejected]
  repeat' split
  all_goals
    simp [simulateShareCalls_append, simulateShareCalls_cons, simulateShareCalls_nil,
      Effect.simulateShareArgs, simulateShareCalls_shareEncryptAdded]

/-- C12: in the share handler the only call of `Resource.simulateShare` has
the resource id of the shared password and the permissions pushed by the loop
over shareWith; that list has the length and the order of shareWith, its i-th
element is the permission with aco Resource, aro User or Group as the i-th
entry is tagged, aro_foreign_key the id of that entry and type 1; and the call
is made once when shareWith is not empty and stages 1 to 3 succeed. -/
theorem shareEncrypt_permissions (env : Env) (tabId : TabId) (requestId : String)
    (s : Store) (sharedPassword : SharedPassword) (aros : List Aro)
    (haros : TabStorage.get s tabId .shareWith = some aros)
    (hshared : TabStorage.get s tabId .sharedPassword = some sharedPassword) :
    (∀ call ∈ simulateShareCalls (shareEncrypt env tabId requestId s).trace,
        call = (sharedPassword.resourceId, pushPermissions [] aros))
      ∧ (pushPermissions [] aros).length = aros.length
      ∧ (∀ (i : Nat) (hi : i < aros.length) (hp : i < (pushPermissions [] aros).length),
          (pushPermissions [] aros)[i]
            = match aros[i] with
              | .User id => ⟨"Resource", "User", id, 1⟩
              | .Group id => ⟨"Resource", "Group", id, 1⟩)
      ∧ (aros ≠ [] →
          ∀ masterPassword secret : String,
            env.masterPassword = .ok masterPassword →
            env.decrypt sharedPassword.armored masterPassword = .ok secret →
            env.sync = .ok () →
            simulateShareCalls (shareEncrypt env tabId requestId s).trace
              = [(sharedPassword.resourceId, pushPermissions [] aros)]) := by
  have hpush : pushPermissions [] aros = aros.map Aro.permission := by
    simpa using pushPermissions_eq_map aros []
  refine ⟨?_, ?_, ?_, ?_⟩
  · intro call hcall
    rcases simulateShareCalls_shareEncrypt env tabId requestId s sharedPassword aros haros
      hshared with h | h
    · rw [h] at hcall; exact absurd hcall (List.not_mem_nil _)
    · rw [h] at hcall; rw [hpush]; exact List.mem_singleton.mp hcall
  · rw [hpush, List.length_map]
  · intro i hi hp
    simp only [hpush, List.getElem_map]
    cases aros[i] <;> rfl
  · intro hne masterPassword secret hmaster hdecrypt hsync
    rw [hpush]
    cases hsim : env.simulateShare sharedPassword.resourceId (aros.map Aro.permission) with
    | error e =>
      simp [shareEncrypt, haros, hne, hshared, hmaster, hdecrypt, hsync, hsim,
        shareEncryptRejected, simulateShareCalls_cons, simulateShareCalls_nil,
        Effect.simulateShareArgs]
    | ok response =>
      simp [shareEncrypt, haros, hne, hshared, hmaster, hdecrypt, hsync, hsim,
        simulateShareCalls_shareEncryptAdded, simulateShareCalls_cons,
        simulateShareCalls_nil, Effect.simulateShareArgs]

theorem shareEncrypt_permissions_witness :
    simulateShareCalls (shareEncrypt okEnv 1 "request-12" demoStore).trace
      = [("resource-1",
          [⟨"Resource", "User", "u1", 1⟩, ⟨"Resource", "User", "u2", 1⟩])] :=
  (shareEncrypt_permissions okEnv 1 "request-12" demoStore ⟨"armored", "resource-1", none⟩
    [.User "u1", .User "u2"] (by decide) (by decide)).2.2.2 (by decide) "passphrase"
    "plaintext" rfl rfl rfl

/-! ## Answers of the user handlers -/

theorem outcomeOf_ok {α : Type} (x : Except JsError α) (u : Unit) :
    outcomeOf x = .ok u ↔ ∃ a, x = .ok a := by
  cases x <;> simp [outcomeOf]

theorem outcomeOf_error {α : Type} (x : Except JsError α) (e : JsError) :
    outcomeOf x = .error e ↔ x = .error e := by
  cases x <;> simp [outcomeOf]

/-- C13: for every handler registered by `listen` of userEvents.js: when the
calls of the handler return, the trace is one SUCCESS envelope on the request
id; when they throw `e`, the trace is one ERROR envelope with `e.message`
first (then `e.validationErrors` for the two validation handlers) for every
handler but two: the set.name handler answers ERROR with `e.validationErrors`
alone, and the logout handler, which has no try block, emits nothing. -/
theorem userEvents_replies (user : UserModel) (ev : UserEvent) :
    (∀ u : Unit, ev.modelCall user = .ok u →
        ∃ args : List Payload,
          userEvents.listen user ev = [.emit .self ev.requestId (SUCCESS :: args)])
      ∧ (∀ e : JsError, ev.modelCall user = .error e →
          (ev.answersWithMessage = true →
              userEvents.listen user ev = [.emit .self ev.requestId (ev.errorReply e)])
            ∧ (∀ requestId firstname lastname, ev = .setName requestId firstname lastname →
              userEvents.listen user ev
                = [.emit .self requestId [ERROR, validationErrorsOf e]])
            ∧ (∀ requestId, ev = .logout requestId →
              userEvents.listen user ev = [.uncaught e]
                ∧ repliesOn requestId (userEvents.listen user ev) = [])) := by
  cases ev with
  | set requestId u =>
    simp only [UserEvent.modelCall]
    cases h1 : user.set u with
    | error e1 =>
      simp [userEvents.listen, userSet, h1, UserEvent.requestId, UserEvent.errorReply,
        UserEvent.answersWithMessage, userError]
    | ok v =>
      cases h2 : user.passboltAuthInit <;>
        simp [userEvents.listen, userSet, h1, h2, UserEvent.requestId, UserEvent.errorReply,
          UserEvent.answersWithMessage, userError]
  | _ =>
    refine ⟨fun u h => ?_, fun e h => ?_⟩ <;>
      (try simp only [UserEvent.modelCall, outcomeOf_ok, outcomeOf_error] at h)
    · try obtain ⟨a, h⟩ := h
      simp [userEvents.listen, userGet, userGetName, userGetUsername, userSettingsGet,
        userSettingsGetSecurityToken, userSettingsGetDomain, userValidate, userSetName,
        userSetUsername, userSetId, userSettingsSetSecurityToken, userSettingsSetDomain,
        userSettingsValidate, userRememberMasterPassword, userLogout, h,
        UserEvent.requestId]
    · simp [userEvents.listen, userGet, userGetName, userGetUsername, userSettingsGet,
        userSettingsGetSecurityToken, userSettingsGetDomain, userValidate, userSetName,
        userSetUsername, userSetId, userSettingsSetSecurityToken, userSettingsSetDomain,
        userSettingsValidate, userRememberMasterPassword, userLogout, h,
        UserEvent.requestId, UserEvent.errorReply, UserEvent.answersWithMessage, userError,
        repliesOn_cons, repliesOn_nil, Effect.replyOn]

theorem userEvents_replies_witness :
    (UserEvent.logout "request-13").modelCall failingUser
        = .error ⟨"The user is not logged in", none⟩
      ∧ repliesOn "request-13" (userEvents.listen failingUser (.logout "request-13")) = []
      ∧ userEvents.listen failingUser (.setName "request-14" "" "Lovelace")
          = [.emit .self "request-14" [ERROR, .fieldErrors [("firstname", "empty")]]]
      ∧ userEvents.listen failingUser (.setUsername "request-15" "ada@passbolt.com")
          = [.emit .self "request-15" [SUCCESS]] :=
  ⟨rfl,
   (((userEvents_replies failingUser (.logout "request-13")).2
      ⟨"The user is not logged in", none⟩ rfl).2.2 "request-13" rfl).2,
   ((userEvents_replies failingUser (.setName "request-14" "" "Lovelace")).2
      ⟨"The firstname is not valid", some [("firstname", "empty")]⟩ rfl).2.1
      "request-14" "" "Lovelace" rfl,
   by decide⟩

/-! ## Answers of the validate handler -/

/-- C14: in the validate handler, when a worker named Secret is registered for
the tab: a secret that is not decrypted is not validated, the Secret worker
gets validate-success and the answer is SUCCESS; when the validation throws
`e` the Secret worker gets validate-error with the message and the validation
errors and the answer is ERROR with both; when no edited password is stored
the only envelope on the request id is ERROR. When no worker named Secret is
registered, no envelope is emitted on the request id, whatever the tab state. -/
theorem secretEditValidate_replies (env : Env) (tabId : TabId) (requestId : String)
    (s : Store) :
    (env.workerExists "Secret" tabId = true →
        (∀ editedPassword : EditedPassword,
            TabStorage.get s tabId .editedPassword = some editedPassword →
            editedPassword.secret = none →
            (secretEditValidate env tabId requestId s).trace
              = [.emit (.named "Secret") "passbolt.secret-edit.validate-success" [],
                 .emit .self requestId [SUCCESS]])
          ∧ (∀ (editedPassword : EditedPassword) (data : String) (e : JsError),
            TabStorage.get s tabId .editedPassword = some editedPassword →
            editedPassword.secret = some data →
            env.validate data = .error e →
            (secretEditValidate env tabId requestId s).trace
              = [.validate data,
                 .emit (.named "Secret") "passbolt.secret-edit.validate-error"
                   [.str e.message, validationErrorsOf e],
                 .emit .self requestId [ERROR, .str e.message, validationErrorsOf e]])
          ∧ (∀ (editedPassword : EditedPassword) (data : String),
            TabStorage.get s tabId .editedPassword = some editedPassword →
            editedPassword.secret = some data →
            env.validate data = .ok () →
            (secretEditValidate env tabId requestId s).trace
              = [.validate data,
                 .emit (.named "Secret") "passbolt.secret-edit.validate-success" [],
                 .emit .self requestId [SUCCESS]])
          ∧ (TabStorage.get s tabId .editedPassword = none →
            repliesOn requestId (secretEditValidate env tabId requestId s).trace
              = [[ERROR, .str (typeError "editedPassword is undefined").message,
                  .undefined]]))
      ∧ (env.workerExists "Secret" tabId = false →
          repliesOn requestId (secretEditValidate env tabId requestId s).trace = []) := by
  constructor
  · intro hworker
    refine ⟨?_, ?_, ?_, ?_⟩
    · intro editedPassword hstored hsecret
      simp [secretEditValidate, hstored, hsecret, secretEditValidateDone, hworker]
    · intro editedPassword data e hstored hsecret hvalidate
      simp [secretEditValidate, hstored, hsecret, hvalidate, secretEditValidateCatch, hworker]
    · intro editedPassword data hstored hsecret hvalidate
      simp [secretEditValidate, hstored, hsecret, hvalidate, secretEditValidateDone, hworker]
    · intro hstored
      simp [secretEditValidate, hstored, secretEditValidateCatch, hworker, repliesOn_cons,
        repliesOn_nil, Effect.replyOn, validationErrorsOf, typeError]
  · intro hworker
    simp only [secretEditValidate]
    repeat' split
    all_goals
      simp [secretEditValidateDone, secretEditValidateCatch, hworker, repliesOn_cons,
        repliesOn_nil, Effect.replyOn]

theorem secretEditValidate_replies_witness :
    noWorkerEnv.workerExists "Secret" 2 = false
      ∧ repliesOn "request-14" (secretEditValidate noWorkerEnv 2 "request-14" demoStore).trace
          = []
      ∧ (secretEditValidate noWorkerEnv 2 "request-14" demoStore).trace
          = [.uncaught (notFound "Secret")]
      ∧ (secretEditValidate invalidSecretEnv 1 "request-14" demoStore).trace
          = [.validate "plaintext",
             .emit (.named "Secret") "passbolt.secret-edit.validate-error"
               [.str "The secret is not valid", .fieldErrors [("data", "too long")]],
             .emit .self "request-14"
               [ERROR, .str "The secret is not valid", .fieldErrors [("data", "too long")]]] :=
  ⟨rfl,
   (secretEditValidate_replies noWorkerEnv 2 "request-14" demoStore).2 rfl,
   by decide,
   ((secretEditValidate_replies invalidSecretEnv 1 "request-14" demoStore).1 rfl).2.1
     ⟨some "plaintext"⟩ "plaintext"
     ⟨"The secret is not valid", some [("data", "too long")]⟩ (by decide) rfl rfl⟩

end Passbolt
